import Mathlib

/-!
Shallow embedding of `src/database.py` (SalaUrgencias): an emergency-room
visit allocator over a SQLite store.  Tables `DOCTORES`, `CAMAS` and
`VISITAS_EMERGENCIA` are modelled as lists of records in table (rowid)
order; SQL `UPDATE ... WHERE p` is a map over the list together with the
affected-row count (`cur.rowcount`), and `ORDER BY k LIMIT 1` is the first
element of minimal key in table order.  The transaction wrapper `tx`
commits the final state on success and rolls back to the initial state on
any raised error, mirroring the `tx` contextmanager in the source.
-/

inductive CamaEstado where
  | LIBRE
  | OCUPADA
deriving Repr, DecidableEq

inductive VisitaEstado where
  | ABIERTA
  | CERRADA
deriving Repr, DecidableEq

/-- Errors raised by the source (`RuntimeError`/`KeyError` messages). -/
inductive Err where
  | noDoctorAvailable
  | noBedAvailable
  | resourceContention
  | visitNotFoundOrAlreadyClosed
  | keyError (field : String)
deriving Repr, DecidableEq

structure Doctor where
  id_doctor : Nat
  activo : Bool
  disponible : Bool
deriving Repr, DecidableEq

structure Cama where
  id_cama : Nat
  id_sala : Nat
  estado : CamaEstado
deriving Repr, DecidableEq

structure Visita where
  folio : Nat
  id_paciente : Nat
  id_doctor : Nat
  id_trabajador : Nat
  id_sala : Nat
  id_cama : Nat
  origen_solicitud : String
  prioridad : Int
  motivo : String
  fecha_hora_inicio : String
  fecha_hora_cierre : Option String
  estado : VisitaEstado
deriving Repr, DecidableEq

/-- The payload dict passed to `crear_visita_tx`; `none` marks an absent key. -/
structure Payload where
  id_paciente : Option Nat
  id_trabajador : Option Nat
  origen_solicitud : Option String
  prioridad : Option Int
  motivo : Option String
deriving Repr, DecidableEq

/-- The dict returned by `crear_visita_tx`. -/
structure CrearResult where
  folio : Nat
  id_doctor : Nat
  id_cama : Nat
  id_sala : Nat
deriving Repr, DecidableEq

/-- The database state: the three tables in rowid order.  `next_folio` models
the store-assigned folio sequence (the schema itself is outside `src/`;
the source inserts `folio = None` and reads the assigned value back).
Modelled from the spec: "Folio — unique identifier assigned to a Visit at
creation". -/
structure Store where
  doctores : List Doctor
  camas : List Cama
  visitas : List Visita
  next_folio : Nat
deriving Repr, DecidableEq

/-- SQL `UPDATE t SET f WHERE p`: the updated table and `cur.rowcount`
(the number of matched rows). -/
def sqlUpdate (p : α → Bool) (f : α → α) (l : List α) : List α × Nat :=
  (l.map fun x => if p x then f x else x, (l.filter p).length)

/-- Lexicographic strict order on sort keys, for `ORDER BY` with two columns. -/
def keyLt (a b : Nat × Nat) : Bool :=
  a.1 < b.1 || (a.1 == b.1 && a.2 < b.2)

/-- `ORDER BY key ASC LIMIT 1` over rows in table order: the first row whose
key is minimal (SQLite keeps ties in a store-defined order; we take table
order, which is how the rows come back). -/
def firstMinBy (key : α → Nat × Nat) : List α → Option α
  | [] => none
  | x :: xs =>
    match firstMinBy key xs with
    | none => some x
    | some y => if keyLt (key y) (key x) then some y else some x

/-- Count of a doctor's ABIERTA visits, the sort key of the doctor query. -/
def openCount (vs : List Visita) (d : Nat) : Nat :=
  (vs.filter fun v => v.id_doctor == d && v.estado == VisitaEstado.ABIERTA).length

/-- `_seleccionar_doctor_disponible`: among `activo=1 AND disponible=1`
doctors, the one with the fewest ABIERTA visits (first in table order on
ties), or `none`. -/
def _seleccionar_doctor_disponible (s : Store) : Option Nat :=
  (firstMinBy (fun d => (openCount s.visitas d.id_doctor, 0))
      (s.doctores.filter fun d => d.activo && d.disponible)).map (·.id_doctor)

/-- `_seleccionar_cama_libre`: the LIBRE bed with least `(id_sala, id_cama)`,
returned as `(id_cama, id_sala)`, or `none` (the source returns
`(None, None)`). -/
def _seleccionar_cama_libre (s : Store) : Option (Nat × Nat) :=
  (firstMinBy (fun c => (c.id_sala, c.id_cama))
      (s.camas.filter fun c => c.estado == CamaEstado.LIBRE)).map
    fun c => (c.id_cama, c.id_sala)

/-- `_ocupar_recursos`: claim the doctor by conditional update; on rowcount
not 1 stop; else claim the bed; on rowcount not 1 unconditionally restore
the doctor's `disponible=1` and report failure. -/
def _ocupar_recursos (s : Store) (id_doctor id_cama id_sala_cama : Nat) :
    Bool × Store :=
  let du := sqlUpdate (fun d => d.id_doctor == id_doctor && d.disponible)
      (fun d => { d with disponible := false }) s.doctores
  let s1 : Store := { s with doctores := du.1 }
  if du.2 != 1 then (false, s1)
  else
    let cu := sqlUpdate
        (fun c => c.id_cama == id_cama && c.id_sala == id_sala_cama &&
          c.estado == CamaEstado.LIBRE)
        (fun c => { c with estado := CamaEstado.OCUPADA }) s1.camas
    let s2 : Store := { s1 with camas := cu.1 }
    if cu.2 != 1 then
      let du2 := sqlUpdate (fun d => d.id_doctor == id_doctor)
          (fun d => { d with disponible := true }) s2.doctores
      (false, { s2 with doctores := du2.1 })
    else (true, s2)

/-- Body of `crear_visita_tx` (the code inside `with tx() as conn:`).
`if not id_doctor` / `if not id_cama` are Python truthiness tests, so both
`None` and the integer `0` take the failure branch.  Payload keys are only
read when the INSERT's argument tuple is built, in source order; a missing
required key raises `KeyError` there.  The inserted row gets the
store-assigned folio (`next_folio`), which the trailing
`SELECT folio ... WHERE id_visita = last_insert_rowid()` reads back. -/
def crear_visita_body (p : Payload) (now : String) (s : Store) :
    Except Err (CrearResult × Store) :=
  match _seleccionar_doctor_disponible s with
  | none => .error .noDoctorAvailable
  | some id_doctor =>
    if id_doctor == 0 then .error .noDoctorAvailable
    else
      match _seleccionar_cama_libre s with
      | none => .error .noBedAvailable
      | some (id_cama, id_sala_dest) =>
        if id_cama == 0 then .error .noBedAvailable
        else
          match _ocupar_recursos s id_doctor id_cama id_sala_dest with
          | (false, _) => .error .resourceContention
          | (true, s1) =>
            match p.id_paciente with
            | none => .error (.keyError "id_paciente")
            | some id_paciente =>
              match p.id_trabajador with
              | none => .error (.keyError "id_trabajador")
              | some id_trabajador =>
                match p.origen_solicitud with
                | none => .error (.keyError "origen_solicitud")
                | some origen =>
                  let v : Visita :=
                    { folio := s1.next_folio
                      id_paciente := id_paciente
                      id_doctor := id_doctor
                      id_trabajador := id_trabajador
                      id_sala := id_sala_dest
                      id_cama := id_cama
                      origen_solicitud := origen
                      prioridad := p.prioridad.getD 3
                      motivo := p.motivo.getD ""
                      fecha_hora_inicio := now
                      fecha_hora_cierre := none
                      estado := VisitaEstado.ABIERTA }
                  let s2 : Store :=
                    { s1 with
                      visitas := s1.visitas ++ [v]
                      next_folio := s1.next_folio + 1 }
                  .ok ({ folio := v.folio
                         id_doctor := id_doctor
                         id_cama := id_cama
                         id_sala := id_sala_dest }, s2)

/-- The `tx` contextmanager: commit the body's final state on success,
roll back to the initial state and re-raise on any error. -/
def tx (body : Store → Except Err (α × Store)) (s : Store) :
    Except Err α × Store :=
  match body s with
  | .ok (a, s1) => (.ok a, s1)
  | .error e => (.error e, s)

def crear_visita_tx (p : Payload) (now : String) (s : Store) :
    Except Err CrearResult × Store :=
  tx (crear_visita_body p now) s

/-- Body of `cerrar_visita_tx`: flip the ABIERTA row with this folio to
CERRADA; if the rowcount is not 1, raise; otherwise release the doctor and
the bed named by the scalar subqueries `SELECT ... WHERE folio=?` (the
first matching row in table order), without checking those rowcounts. -/
def cerrar_visita_body (folio : Nat) (now : String) (s : Store) :
    Except Err (Unit × Store) :=
  let vu := sqlUpdate
      (fun v => v.folio == folio && v.estado == VisitaEstado.ABIERTA)
      (fun v => { v with estado := VisitaEstado.CERRADA
                         fecha_hora_cierre := some now }) s.visitas
  let s1 : Store := { s with visitas := vu.1 }
  if vu.2 != 1 then .error .visitNotFoundOrAlreadyClosed
  else
    let sub := s1.visitas.find? fun v => v.folio == folio
    let s2 : Store :=
      match sub with
      | none => s1
      | some v =>
        { s1 with
          doctores := (sqlUpdate (fun d => d.id_doctor == v.id_doctor)
              (fun d => { d with disponible := true }) s1.doctores).1 }
    let s3 : Store :=
      match sub with
      | none => s2
      | some v =>
        { s2 with
          camas := (sqlUpdate
              (fun c => c.id_cama == v.id_cama && c.id_sala == v.id_sala)
              (fun c => { c with estado := CamaEstado.LIBRE }) s2.camas).1 }
    .ok ((), s3)

def cerrar_visita_tx (folio : Nat) (now : String) (s : Store) :
    Except Err Unit × Store :=
  tx (cerrar_visita_body folio now) s

/-- Store well-formedness: primary keys are unique (`id_doctor`,
`(id_sala, id_cama)`, `folio`) and every stored folio is below the
store's next assigned folio. -/
def WF (s : Store) : Prop :=
  (s.doctores.map (·.id_doctor)).Nodup ∧
  (s.camas.map fun c => (c.id_sala, c.id_cama)).Nodup ∧
  (s.visitas.map (·.folio)).Nodup ∧
  (∀ v ∈ s.visitas, v.folio < s.next_folio)

instance (s : Store) : Decidable (WF s) := by
  unfold WF; infer_instance

/-- The row the INSERT adds when the payload's required keys are present. -/
def insertedVisita (pid tid : Nat) (org : String) (p : Payload) (now : String)
    (folio i bc br : Nat) : Visita :=
  { folio := folio
    id_paciente := pid
    id_doctor := i
    id_trabajador := tid
    id_sala := br
    id_cama := bc
    origen_solicitud := org
    prioridad := p.prioridad.getD 3
    motivo := p.motivo.getD ""
    fecha_hora_inicio := now
    fecha_hora_cierre := none
    estado := VisitaEstado.ABIERTA }

/-- Foreign-key integrity: every OPEN visit's doctor and bed references
resolve to rows of `DOCTORES` / `CAMAS` (the connection runs with
`PRAGMA foreign_keys = ON`). -/
def FK (s : Store) : Prop :=
  (∀ v ∈ s.visitas, v.estado = VisitaEstado.ABIERTA →
    ∃ d ∈ s.doctores, d.id_doctor = v.id_doctor) ∧
  (∀ v ∈ s.visitas, v.estado = VisitaEstado.ABIERTA →
    ∃ c ∈ s.camas, c.id_cama = v.id_cama ∧ c.id_sala = v.id_sala)

instance (s : Store) : Decidable (FK s) := by
  unfold FK; infer_instance

/-- The per-row coupling invariant of the data model: a doctor is
unavailable exactly when some OPEN visit references it, a bed is OCUPADA
exactly when some OPEN visit references it, and no two OPEN visits share a
doctor or a bed. -/
def RowInv (s : Store) : Prop :=
  (∀ d ∈ s.doctores, d.disponible = false ↔
    ∃ v ∈ s.visitas, v.estado = VisitaEstado.ABIERTA ∧
      v.id_doctor = d.id_doctor) ∧
  (∀ c ∈ s.camas, c.estado = CamaEstado.OCUPADA ↔
    ∃ v ∈ s.visitas, v.estado = VisitaEstado.ABIERTA ∧
      v.id_cama = c.id_cama ∧ v.id_sala = c.id_sala) ∧
  s.visitas.Pairwise fun v w => v.estado = VisitaEstado.ABIERTA →
    w.estado = VisitaEstado.ABIERTA →
    v.id_doctor ≠ w.id_doctor ∧ (v.id_cama, v.id_sala) ≠ (w.id_cama, w.id_sala)

instance (s : Store) : Decidable (RowInv s) := by
  unfold RowInv; infer_instance

def GoodState (s : Store) : Prop := WF s ∧ FK s ∧ RowInv s

instance (s : Store) : Decidable (GoodState s) := by
  unfold GoodState; infer_instance

/-- The two quiescent-point counting equalities of spec property P2. -/
def countsEq (s : Store) : Prop :=
  (s.doctores.filter fun d => !d.disponible).length =
    (((s.visitas.filter fun v => v.estado == VisitaEstado.ABIERTA).map
      (·.id_doctor)).dedup).length ∧
  (s.camas.filter fun c => c.estado == CamaEstado.OCUPADA).length =
    (((s.visitas.filter fun v => v.estado == VisitaEstado.ABIERTA).map
      fun v => (v.id_sala, v.id_cama)).dedup).length

instance (s : Store) : Decidable (countsEq s) := by
  unfold countsEq; infer_instance

/-! ### Concrete states and payloads used by witnesses and counterexamples -/

/-- A complete payload: patient 1, worker 9, origin walk-in. -/
def P_A : Payload := ⟨some 1, some 9, some "walk-in", none, none⟩

/-- The same payload with the required patient id missing. -/
def P_missing : Payload := ⟨none, some 9, some "walk-in", none, none⟩

/-- Scenario A store: one eligible doctor, one free bed, no visits. -/
def S_A : Store :=
  { doctores := [⟨1, true, true⟩]
    camas := [⟨1, 1, CamaEstado.LIBRE⟩]
    visitas := []
    next_folio := 1 }

/-- The store after a successful Open on `S_A`. -/
def S_A2 : Store :=
  { doctores := [⟨1, true, false⟩]
    camas := [⟨1, 1, CamaEstado.OCUPADA⟩]
    visitas := [⟨1, 1, 1, 9, 1, 1, "walk-in", 3, "", "t", none,
      VisitaEstado.ABIERTA⟩]
    next_folio := 2 }

/-- A store whose only doctor has id 0: Python `if not id_doctor` treats
the selected id 0 like `None`. -/
def S_zero : Store :=
  { doctores := [⟨0, true, true⟩]
    camas := [⟨1, 1, CamaEstado.LIBRE⟩]
    visitas := []
    next_folio := 1 }

/-- An empty store. -/
def S_empty : Store :=
  { doctores := [], camas := [], visitas := [], next_folio := 1 }

/-- Two eligible doctors; doctor 1 already has an open visit, so the
least-loaded selection must return doctor 2. -/
def S_sel : Store :=
  { doctores := [⟨1, true, true⟩, ⟨2, true, true⟩]
    camas := []
    visitas := [⟨1, 5, 1, 9, 1, 1, "w", 3, "", "t0", none,
      VisitaEstado.ABIERTA⟩]
    next_folio := 2 }

/-- An open visit with folio 1 bound to doctor 1 and bed (1,1). -/
def V_close : Visita :=
  ⟨1, 5, 1, 9, 1, 1, "w", 3, "", "t0", none, VisitaEstado.ABIERTA⟩

/-- One open visit bound to doctor 1 and bed (1,1), both present. -/
def S_close : Store :=
  { doctores := [⟨1, true, false⟩]
    camas := [⟨1, 1, CamaEstado.OCUPADA⟩]
    visitas := [V_close]
    next_folio := 2 }

/-- One open visit whose doctor and bed rows do not exist at all: the
release updates of Close match zero rows. -/
def S_orphan : Store :=
  { doctores := []
    camas := []
    visitas := [⟨1, 5, 1, 9, 1, 1, "w", 3, "", "t0", none,
      VisitaEstado.ABIERTA⟩]
    next_folio := 2 }

/-- One eligible doctor and a duplicated bed key, making the conditional
bed claim match two rows (rowcount 2 at the bed update). -/
def S_dup : Store :=
  { doctores := [⟨1, true, true⟩]
    camas := [⟨1, 1, CamaEstado.LIBRE⟩, ⟨1, 1, CamaEstado.LIBRE⟩]
    visitas := []
    next_folio := 1 }

/-- A store satisfying the two counting equalities but not the per-row
invariant: doctor 1 is unavailable yet unreferenced, while doctor 2 is
available yet referenced by the open visit (and likewise bed (1,1) is
OCUPADA-by-count only). -/
def S_cnt : Store :=
  { doctores := [⟨1, true, false⟩, ⟨2, true, true⟩]
    camas := [⟨1, 1, CamaEstado.OCUPADA⟩, ⟨2, 1, CamaEstado.LIBRE⟩]
    visitas := [⟨1, 5, 2, 9, 1, 1, "w", 3, "", "t0", none,
      VisitaEstado.ABIERTA⟩]
    next_folio := 2 }


/-! ### Order-by helper lemmas -/

theorem keyLt_iff (a b : Nat × Nat) :
    keyLt a b = true ↔ a.1 < b.1 ∨ (a.1 = b.1 ∧ a.2 < b.2) := by
  simp [keyLt, Bool.or_eq_true, Bool.and_eq_true, decide_eq_true_eq, beq_iff_eq]

theorem keyLt_false_iff (a b : Nat × Nat) :
    keyLt a b = false ↔ ¬(a.1 < b.1 ∨ (a.1 = b.1 ∧ a.2 < b.2)) := by
  rw [← keyLt_iff]
  exact Bool.eq_false_iff.trans (by simp)

theorem keyLt_irrefl (a : Nat × Nat) : keyLt a a = false := by
  rw [keyLt_false_iff]; omega

theorem keyLt_asymm {a b : Nat × Nat} (h : keyLt a b = true) :
    keyLt b a = false := by
  rw [keyLt_iff] at h; rw [keyLt_false_iff]; omega

theorem keyLt_negtrans {a b c : Nat × Nat} (h1 : keyLt a b = false)
    (h2 : keyLt b c = false) : keyLt a c = false := by
  rw [keyLt_false_iff] at h1 h2 ⊢; omega

theorem firstMinBy_eq_none_iff (key : α → Nat × Nat) (l : List α) :
    firstMinBy key l = none ↔ l = [] := by
  cases l with
  | nil => simp [firstMinBy]
  | cons x xs =>
    simp only [firstMinBy]
    constructor
    · intro h
      cases hm : firstMinBy key xs with
      | none => rw [hm] at h; cases h
      | some y => rw [hm] at h; dsimp at h; split at h <;> cases h
    · intro h; cases h

theorem firstMinBy_mem {key : α → Nat × Nat} {l : List α} {x : α}
    (h : firstMinBy key l = some x) : x ∈ l := by
  induction l generalizing x with
  | nil => cases h
  | cons a as ih =>
    simp only [firstMinBy] at h
    cases hm : firstMinBy key as with
    | none =>
      rw [hm] at h; injection h with h; subst h; exact List.mem_cons_self a as
    | some y =>
      rw [hm] at h; dsimp at h; split at h
      · injection h with h; subst h; exact List.mem_cons_of_mem a (ih hm)
      · injection h with h; subst h; exact List.mem_cons_self a as

theorem firstMinBy_min {key : α → Nat × Nat} {l : List α} {x : α}
    (h : firstMinBy key l = some x) :
    ∀ y ∈ l, keyLt (key y) (key x) = false := by
  induction l generalizing x with
  | nil => cases h
  | cons a as ih =>
    simp only [firstMinBy] at h
    intro y hy
    cases hm : firstMinBy key as with
    | none =>
      rw [hm] at h; injection h with h; subst h
      rw [(firstMinBy_eq_none_iff key as).mp hm] at hy
      rcases List.mem_cons.mp hy with rfl | hy2
      · exact keyLt_irrefl _
      · cases hy2
    | some z =>
      rw [hm] at h; dsimp at h; split at h
      · rename_i hlt
        injection h with h; subst h
        rcases List.mem_cons.mp hy with rfl | hy2
        · exact keyLt_asymm hlt
        · exact ih hm y hy2
      · rename_i hlt
        injection h with h; subst h
        rcases List.mem_cons.mp hy with rfl | hy2
        · exact keyLt_irrefl _
        · exact keyLt_negtrans (ih hm y hy2) (Bool.eq_false_iff.mpr hlt)

/-! ### Selector specifications -/

theorem seleccionar_doctor_none_iff (s : Store) :
    _seleccionar_doctor_disponible s = none ↔
      ∀ d ∈ s.doctores, ¬(d.activo = true ∧ d.disponible = true) := by
  simp only [_seleccionar_doctor_disponible, Option.map_eq_none',
    firstMinBy_eq_none_iff, List.filter_eq_nil_iff, Bool.and_eq_true]

theorem seleccionar_doctor_some_spec {s : Store} {i : Nat}
    (h : _seleccionar_doctor_disponible s = some i) :
    ∃ d ∈ s.doctores, d.id_doctor = i ∧ d.activo = true ∧ d.disponible = true ∧
      ∀ e ∈ s.doctores, e.activo = true → e.disponible = true →
        openCount s.visitas i ≤ openCount s.visitas e.id_doctor := by
  simp only [_seleccionar_doctor_disponible, Option.map_eq_some'] at h
  obtain ⟨d, hd, hdi⟩ := h
  have hmem := firstMinBy_mem hd
  have hmin := firstMinBy_min hd
  rw [List.mem_filter, Bool.and_eq_true] at hmem
  refine ⟨d, hmem.1, hdi, hmem.2.1, hmem.2.2, ?_⟩
  intro e he hea hed
  have hef : e ∈ s.doctores.filter fun d => d.activo && d.disponible := by
    rw [List.mem_filter, Bool.and_eq_true]; exact ⟨he, hea, hed⟩
  have := hmin e hef
  rw [keyLt_false_iff] at this
  subst hdi
  omega

theorem seleccionar_cama_none_iff (s : Store) :
    _seleccionar_cama_libre s = none ↔
      ∀ c ∈ s.camas, c.estado ≠ CamaEstado.LIBRE := by
  simp only [_seleccionar_cama_libre, Option.map_eq_none',
    firstMinBy_eq_none_iff, List.filter_eq_nil_iff, beq_iff_eq]

theorem seleccionar_cama_some_spec {s : Store} {b r : Nat}
    (h : _seleccionar_cama_libre s = some (b, r)) :
    ∃ c ∈ s.camas, c.id_cama = b ∧ c.id_sala = r ∧
      c.estado = CamaEstado.LIBRE := by
  simp only [_seleccionar_cama_libre, Option.map_eq_some'] at h
  obtain ⟨c, hc, hcbr⟩ := h
  have hmem := firstMinBy_mem hc
  rw [List.mem_filter, beq_iff_eq] at hmem
  injection hcbr with h1 h2
  exact ⟨c, hmem.1, h1, h2, hmem.2⟩

/-! ### Conditional-update helper lemmas -/

theorem sqlUpdate_fst (p : α → Bool) (f : α → α) (l : List α) :
    (sqlUpdate p f l).1 = l.map fun x => if p x then f x else x := rfl

theorem sqlUpdate_snd (p : α → Bool) (f : α → α) (l : List α) :
    (sqlUpdate p f l).2 = (l.filter p).length := rfl

theorem filter_eq_singleton_of_nodup_key {β : Type} [DecidableEq β]
    {l : List α} {k : α → β}
    (hnd : (l.map k).Nodup) {p : α → Bool} {x : α}
    (hx : x ∈ l) (hpx : p x = true)
    (hkey : ∀ y ∈ l, p y = true → k y = k x) :
    l.filter p = [x] := by
  induction l with
  | nil => cases hx
  | cons a as ih =>
    rw [List.map_cons, List.nodup_cons] at hnd
    rcases List.mem_cons.mp hx with rfl | hx2
    · rw [List.filter_cons_of_pos hpx]
      have hnil : as.filter p = [] := by
        rw [List.filter_eq_nil_iff]
        intro y hy hpy
        apply hnd.1
        rw [← hkey y (List.mem_cons_of_mem _ hy) hpy]
        exact List.mem_map_of_mem k hy
      rw [hnil]
    · have hpa : p a = false := by
        cases hpab : p a with
        | false => rfl
        | true =>
          exfalso
          apply hnd.1
          rw [hkey a (List.mem_cons_self a as) hpab]
          exact List.mem_map_of_mem k hx2
      rw [List.filter_cons_of_neg (by simp [hpa])]
      exact ih hnd.2 hx2 fun y hy hpy => hkey y (List.mem_cons_of_mem _ hy) hpy

theorem find?_map_of_key {β : Type} [DecidableEq β] {l : List α} {k : α → β}
    {F : β} (hnd : (l.map k).Nodup) {x : α} (hx : x ∈ l) (hkx : k x = F)
    {g : α → α} (hg : ∀ y, k (g y) = k y) :
    (l.map g).find? (fun y => k y == F) = some (g x) := by
  induction l with
  | nil => cases hx
  | cons a as ih =>
    rw [List.map_cons, List.nodup_cons] at hnd
    rcases List.mem_cons.mp hx with rfl | hx2
    · rw [List.map_cons]
      apply List.find?_cons_of_pos
      simp [hg, hkx]
    · rw [List.map_cons, List.find?_cons_of_neg]
      · exact ih hnd.2 hx2
      · simp only [hg, beq_iff_eq]
        intro heq
        apply hnd.1
        rw [heq, ← hkx]
        exact List.mem_map_of_mem k hx2

theorem mem_map_update_of_mem (p : α → Bool) (f : α → α) {l : List α}
    {x : α} (hx : x ∈ l) :
    (if p x then f x else x) ∈ l.map fun y => if p y then f y else y :=
  List.mem_map_of_mem _ hx

/-! ### `_ocupar_recursos` characterizations -/

theorem ocupar_true_spec {s : Store} {i b r : Nat} {s1 : Store}
    (h : _ocupar_recursos s i b r = (true, s1)) :
    (s.doctores.filter fun d => d.id_doctor == i && d.disponible).length = 1 ∧
    (s.camas.filter fun c => c.id_cama == b && c.id_sala == r &&
        c.estado == CamaEstado.LIBRE).length = 1 ∧
    s1 = { s with
      doctores := s.doctores.map fun d =>
        if d.id_doctor == i && d.disponible then { d with disponible := false }
        else d
      camas := s.camas.map fun c =>
        if c.id_cama == b && c.id_sala == r && c.estado == CamaEstado.LIBRE
        then { c with estado := CamaEstado.OCUPADA } else c } := by
  simp only [_ocupar_recursos, sqlUpdate] at h
  split at h
  · cases h
  · rename_i hd
    split at h
    · cases h
    · rename_i hc
      simp only [bne_iff_ne, ne_eq, not_not] at hd hc
      injection h with h1 h2
      exact ⟨hd, hc, h2.symm⟩

theorem ocupar_true_intro {s : Store} {i b r : Nat}
    (hd : (s.doctores.filter fun d => d.id_doctor == i && d.disponible).length
      = 1)
    (hc : (s.camas.filter fun c => c.id_cama == b && c.id_sala == r &&
        c.estado == CamaEstado.LIBRE).length = 1) :
    _ocupar_recursos s i b r =
      (true, { s with
        doctores := s.doctores.map fun d =>
          if d.id_doctor == i && d.disponible then { d with disponible := false }
          else d
        camas := s.camas.map fun c =>
          if c.id_cama == b && c.id_sala == r && c.estado == CamaEstado.LIBRE
          then { c with estado := CamaEstado.OCUPADA } else c }) := by
  simp only [_ocupar_recursos, sqlUpdate, hd, hc, bne_self_eq_false,
    Bool.false_eq_true, if_false]

theorem ocupar_compensated_spec {s : Store} {i b r : Nat}
    (hd : (s.doctores.filter fun d => d.id_doctor == i && d.disponible).length
      = 1)
    (hc : (s.camas.filter fun c => c.id_cama == b && c.id_sala == r &&
        c.estado == CamaEstado.LIBRE).length ≠ 1) :
    (_ocupar_recursos s i b r).1 = false ∧
      ∀ d ∈ (_ocupar_recursos s i b r).2.doctores,
        d.id_doctor = i → d.disponible = true := by
  have hcond : ((s.camas.filter fun c => c.id_cama == b && c.id_sala == r &&
      c.estado == CamaEstado.LIBRE).length != 1) = true := by
    simpa [bne_iff_ne] using hc
  simp only [_ocupar_recursos, sqlUpdate, hd, bne_self_eq_false,
    Bool.false_eq_true, if_false, hcond, if_true]
  refine ⟨trivial, ?_⟩
  intro d hd2 hid
  rw [List.mem_map] at hd2
  obtain ⟨y, hy, hyd⟩ := hd2
  by_cases hp : y.id_doctor = i
  · rw [if_pos (by simp [hp])] at hyd
    rw [← hyd]
  · rw [if_neg (by simp [hp])] at hyd
    exact absurd (hyd ▸ hid) hp

/-! ### `crear_visita_body` characterizations -/

theorem crear_body_ok_spec {p : Payload} {now : String} {s : Store}
    {r : CrearResult} {s2 : Store}
    (h : crear_visita_body p now s = .ok (r, s2)) :
    ∃ i bc br s1 pid tid org,
      _seleccionar_doctor_disponible s = some i ∧ i ≠ 0 ∧
      _seleccionar_cama_libre s = some (bc, br) ∧ bc ≠ 0 ∧
      _ocupar_recursos s i bc br = (true, s1) ∧
      p.id_paciente = some pid ∧ p.id_trabajador = some tid ∧
      p.origen_solicitud = some org ∧
      r = { folio := s1.next_folio, id_doctor := i, id_cama := bc,
            id_sala := br } ∧
      s2 = { s1 with
        visitas := s1.visitas ++
          [insertedVisita pid tid org p now s1.next_folio i bc br]
        next_folio := s1.next_folio + 1 } := by
  unfold crear_visita_body at h
  split at h
  · cases h
  · rename_i i hsel
    split at h
    · cases h
    · rename_i hi0
      split at h
      · cases h
      · rename_i bc br hbed
        split at h
        · cases h
        · rename_i hb0
          split at h
          · cases h
          · rename_i s1 hocc
            split at h
            · cases h
            · rename_i pid hpid
              split at h
              · cases h
              · rename_i tid htid
                split at h
                · cases h
                · rename_i org horg
                  injection h with h
                  injection h with h1 h2
                  refine ⟨i, bc, br, s1, pid, tid, org, hsel, ?_, hbed, ?_,
                    hocc, hpid, htid, horg, h1.symm, ?_⟩
                  · simpa using hi0
                  · simpa using hb0
                  · exact h2.symm

theorem crear_body_ok_intro (now : String) {p : Payload} {s : Store}
    {i bc br : Nat} {s1 : Store} {pid tid : Nat} {org : String}
    (hsel : _seleccionar_doctor_disponible s = some i) (hi : i ≠ 0)
    (hbed : _seleccionar_cama_libre s = some (bc, br)) (hb : bc ≠ 0)
    (hocc : _ocupar_recursos s i bc br = (true, s1))
    (hpid : p.id_paciente = some pid) (htid : p.id_trabajador = some tid)
    (horg : p.origen_solicitud = some org) :
    crear_visita_body p now s =
      .ok ({ folio := s1.next_folio, id_doctor := i, id_cama := bc,
             id_sala := br },
        { s1 with
          visitas := s1.visitas ++
            [insertedVisita pid tid org p now s1.next_folio i bc br]
          next_folio := s1.next_folio + 1 }) := by
  have hi0 : (i == 0) = false := by simp [hi]
  have hb0 : (bc == 0) = false := by simp [hb]
  simp only [crear_visita_body, hsel, hbed, hocc, hpid, htid, horg, hi0, hb0,
    Bool.false_eq_true, if_false, insertedVisita]

/-! ### `cerrar_visita_body` characterizations -/

theorem cerrar_body_err {folio : Nat} {now : String} {s : Store}
    (hn : (s.visitas.filter fun v => v.folio == folio &&
        v.estado == VisitaEstado.ABIERTA).length ≠ 1) :
    cerrar_visita_body folio now s = .error .visitNotFoundOrAlreadyClosed := by
  have hcond : ((s.visitas.filter fun v => v.folio == folio &&
      v.estado == VisitaEstado.ABIERTA).length != 1) = true := by
    simpa [bne_iff_ne] using hn
  simp only [cerrar_visita_body, sqlUpdate, hcond, if_true]

theorem cerrar_body_ok_exists {folio : Nat} {now : String} {s : Store}
    (hn : (s.visitas.filter fun v => v.folio == folio &&
        v.estado == VisitaEstado.ABIERTA).length = 1) :
    ∃ s3, cerrar_visita_body folio now s = .ok ((), s3) := by
  simp only [cerrar_visita_body, sqlUpdate, hn, bne_self_eq_false,
    Bool.false_eq_true, if_false]
  exact ⟨_, rfl⟩

theorem cerrar_body_count_one {folio : Nat} {now : String} {s : Store}
    {s3 : Store} (h : cerrar_visita_body folio now s = .ok ((), s3)) :
    (s.visitas.filter fun v => v.folio == folio &&
      v.estado == VisitaEstado.ABIERTA).length = 1 := by
  by_contra hn
  rw [cerrar_body_err hn] at h
  cases h

theorem cerrar_body_visitas {folio : Nat} {now : String} {s : Store}
    {s3 : Store} (h : cerrar_visita_body folio now s = .ok ((), s3)) :
    s3.visitas = s.visitas.map fun v =>
      if v.folio == folio && v.estado == VisitaEstado.ABIERTA
      then { v with estado := VisitaEstado.CERRADA
                    fecha_hora_cierre := some now }
      else v := by
  simp only [cerrar_visita_body] at h
  split at h
  · cases h
  · cases hfind : ((sqlUpdate
        (fun v => v.folio == folio && v.estado == VisitaEstado.ABIERTA)
        (fun v => { v with estado := VisitaEstado.CERRADA
                           fecha_hora_cierre := some now }) s.visitas).1.find?
          fun v => v.folio == folio) with
    | none =>
      rw [hfind] at h
      injection h with h; injection h with h1 h2
      rw [← h2]
      rfl
    | some w =>
      rw [hfind] at h
      injection h with h; injection h with h1 h2
      rw [← h2]
      rfl

theorem cerrar_body_ok_full (now : String) {folio : Nat} {s : Store}
    {x : Visita} (hnd : (s.visitas.map (·.folio)).Nodup)
    (hx : x ∈ s.visitas) (hfx : x.folio = folio)
    (hopen : x.estado = VisitaEstado.ABIERTA) :
    cerrar_visita_body folio now s = .ok ((),
      { s with
        visitas := s.visitas.map fun v =>
          if v.folio == folio && v.estado == VisitaEstado.ABIERTA
          then { v with estado := VisitaEstado.CERRADA
                        fecha_hora_cierre := some now }
          else v
        doctores := s.doctores.map fun d =>
          if d.id_doctor == x.id_doctor then { d with disponible := true }
          else d
        camas := s.camas.map fun c =>
          if c.id_cama == x.id_cama && c.id_sala == x.id_sala
          then { c with estado := CamaEstado.LIBRE } else c }) := by
  have hpx : (x.folio == folio && x.estado == VisitaEstado.ABIERTA) = true := by
    simp [hfx, hopen]
  have hcount : (s.visitas.filter fun v => v.folio == folio &&
      v.estado == VisitaEstado.ABIERTA).length = 1 := by
    rw [filter_eq_singleton_of_nodup_key hnd hx hpx ?hkey]
    · rfl
    case hkey =>
      intro y hy hpy
      rw [Bool.and_eq_true, beq_iff_eq] at hpy
      rw [hpy.1, hfx]
  have hfind : ((s.visitas.map fun v =>
      if v.folio == folio && v.estado == VisitaEstado.ABIERTA
      then { v with estado := VisitaEstado.CERRADA
                    fecha_hora_cierre := some now }
      else v).find? fun v => v.folio == folio) =
        some (if x.folio == folio && x.estado == VisitaEstado.ABIERTA
          then { x with estado := VisitaEstado.CERRADA
                        fecha_hora_cierre := some now }
          else x) := by
    apply find?_map_of_key hnd hx hfx
    intro y
    by_cases hp : (y.folio == folio && y.estado == VisitaEstado.ABIERTA) = true
    · rw [if_pos hp]
    · rw [if_neg hp]
  rw [hpx, if_pos rfl] at hfind
  simp only [cerrar_visita_body, sqlUpdate, hcount, bne_self_eq_false,
    Bool.false_eq_true, if_false, hfind]

/-! ### Transaction wrapper lemmas -/

theorem tx_ok {body : Store → Except Err (α × Store)} {s : Store} {a : α}
    {s1 : Store} (h : body s = .ok (a, s1)) : tx body s = (.ok a, s1) := by
  simp [tx, h]

theorem tx_err {body : Store → Except Err (α × Store)} {s : Store} {e : Err}
    (h : body s = .error e) : tx body s = (.error e, s) := by
  simp [tx, h]

theorem tx_ok_inv {body : Store → Except Err (α × Store)} {s s2 : Store}
    {a : α} (h : tx body s = (.ok a, s2)) : body s = .ok (a, s2) := by
  unfold tx at h
  cases hb : body s with
  | ok pr =>
    obtain ⟨a2, s3⟩ := pr
    rw [hb] at h
    rw [Prod.mk.injEq] at h
    obtain ⟨h1, h2⟩ := h
    injection h1 with h1
    rw [h1, h2]
  | error e =>
    rw [hb] at h
    rw [Prod.mk.injEq] at h
    exact absurd h.1 (by simp)

theorem tx_error_state {body : Store → Except Err (α × Store)} {s : Store}
    {e : Err} (h : (tx body s).1 = .error e) : (tx body s).2 = s := by
  unfold tx at h ⊢
  cases hb : body s with
  | ok pr =>
    rw [hb] at h
    obtain ⟨a2, s3⟩ := pr
    simp at h
  | error e2 => rfl

/-! ### Claim theorems -/

/-- Claim C7: `_seleccionar_doctor_disponible` returns the id of a doctor
with `activo=true` and `disponible=true` whose count of ABIERTA visits is
minimal among all such doctors, or `none` exactly when no doctor is both
active and available.  The selector is a pure read: it takes the store and
returns only an optional id, so it performs no writes. -/
theorem C7_select_doctor_contract (s : Store) :
    (∀ i, _seleccionar_doctor_disponible s = some i →
      ∃ d ∈ s.doctores, d.id_doctor = i ∧ d.activo = true ∧
        d.disponible = true ∧
        ∀ e ∈ s.doctores, e.activo = true → e.disponible = true →
          openCount s.visitas i ≤ openCount s.visitas e.id_doctor) ∧
    (_seleccionar_doctor_disponible s = none →
      ∀ d ∈ s.doctores, ¬(d.activo = true ∧ d.disponible = true)) :=
  ⟨fun _ h => seleccionar_doctor_some_spec h,
   fun h => (seleccionar_doctor_none_iff s).mp h⟩

/-- Witness for C7 at `S_sel`: doctor 2 (zero open visits) is selected over
doctor 1 (one open visit), is eligible, and is least-loaded. -/
theorem C7_witness :
    ∃ d ∈ S_sel.doctores, d.id_doctor = 2 ∧ d.activo = true ∧
      d.disponible = true ∧
      ∀ e ∈ S_sel.doctores, e.activo = true → e.disponible = true →
        openCount S_sel.visitas 2 ≤ openCount S_sel.visitas e.id_doctor :=
  (C7_select_doctor_contract S_sel).1 2 (by decide)

/-- Claim C4: Close on a folio with no OPEN visit (nonexistent or already
closed) fails with `VisitNotFoundOrAlreadyClosed` and leaves the store
unchanged; in particular the second of two sequential Close calls on the
same folio fails that way. -/
theorem C4_close_idempotent_safe (folio : Nat) (now now2 : String)
    (s s2 : Store) :
    ((∀ v ∈ s.visitas, ¬(v.folio = folio ∧ v.estado = VisitaEstado.ABIERTA)) →
      cerrar_visita_tx folio now s = (.error .visitNotFoundOrAlreadyClosed, s))
    ∧ (cerrar_visita_tx folio now s = (.ok (), s2) →
      cerrar_visita_tx folio now2 s2 =
        (.error .visitNotFoundOrAlreadyClosed, s2)) := by
  constructor
  · intro hno
    apply tx_err
    apply cerrar_body_err
    have hnil : (s.visitas.filter fun v => v.folio == folio &&
        v.estado == VisitaEstado.ABIERTA) = [] := by
      rw [List.filter_eq_nil_iff]
      intro v hv
      have := hno v hv
      simp only [Bool.and_eq_true, beq_iff_eq]
      tauto
    rw [hnil]
    simp
  · intro hok
    have hbody := tx_ok_inv hok
    have hvis := cerrar_body_visitas hbody
    apply tx_err
    apply cerrar_body_err
    have hnil : (s2.visitas.filter fun v => v.folio == folio &&
        v.estado == VisitaEstado.ABIERTA) = [] := by
      rw [hvis, List.filter_eq_nil_iff]
      intro v hv
      rw [List.mem_map] at hv
      obtain ⟨y, hy, hyv⟩ := hv
      by_cases hp : (y.folio == folio && y.estado == VisitaEstado.ABIERTA)
        = true
      · rw [if_pos hp] at hyv
        rw [← hyv]
        simp
      · rw [if_neg hp] at hyv
        rw [← hyv]
        simpa using hp
    rw [hnil]
    simp

/-- Witness for C4: closing folio 7 (no such visit) in `S_close` fails and
leaves the store unchanged, and closing folio 1 twice gives ok then the
same failure. -/
theorem C4_witness :
    cerrar_visita_tx 7 "u" S_close =
      (.error .visitNotFoundOrAlreadyClosed, S_close) :=
  (C4_close_idempotent_safe 7 "u" "u" S_close S_close).1 (by decide)

/-- Claim C10: whenever the OPEN-to-CLOSED flip matches exactly one row,
Close succeeds, with no check on the affected-row counts of the doctor and
bed release updates (which may match zero rows). -/
theorem C10_close_ignores_release_rowcounts (folio : Nat) (now : String)
    (s : Store)
    (h : (s.visitas.filter fun v => v.folio == folio &&
      v.estado == VisitaEstado.ABIERTA).length = 1) :
    ∃ s3, cerrar_visita_tx folio now s = (.ok (), s3) := by
  obtain ⟨s3, hb⟩ := cerrar_body_ok_exists h
  exact ⟨s3, tx_ok hb⟩

/-- Witness for C10 at `S_orphan`: the visit's doctor and bed rows do not
exist, so both release updates match zero rows, yet Close succeeds. -/
theorem C10_witness :
    S_orphan.doctores = [] ∧ S_orphan.camas = [] ∧
      ∃ s3, cerrar_visita_tx 1 "u" S_orphan = (.ok (), s3) :=
  ⟨rfl, rfl, C10_close_ignores_release_rowcounts 1 "u" S_orphan (by decide)⟩

/-- Claim C5: when the doctor claim matched exactly one row but the bed
claim did not, `_ocupar_recursos` unconditionally restores
`disponible=true` on that doctor and Open fails with ResourceContention
(the transaction rolls the store back). -/
theorem C5_compensation (s : Store) (p : Payload) (now : String)
    (i bc br : Nat)
    (hsel : _seleccionar_doctor_disponible s = some i) (hi : i ≠ 0)
    (hbed : _seleccionar_cama_libre s = some (bc, br)) (hb : bc ≠ 0)
    (hd : (s.doctores.filter fun d => d.id_doctor == i && d.disponible).length
      = 1)
    (hc : (s.camas.filter fun c => c.id_cama == bc && c.id_sala == br &&
        c.estado == CamaEstado.LIBRE).length ≠ 1) :
    (∀ d ∈ (_ocupar_recursos s i bc br).2.doctores,
      d.id_doctor = i → d.disponible = true) ∧
    crear_visita_tx p now s = (.error .resourceContention, s) := by
  obtain ⟨hfalse, hrestore⟩ := ocupar_compensated_spec hd hc
  refine ⟨hrestore, ?_⟩
  apply tx_err
  rcases hocc : _ocupar_recursos s i bc br with ⟨b1, t⟩
  rw [hocc] at hfalse
  dsimp at hfalse
  subst hfalse
  have hi0 : (i == 0) = false := by simp [hi]
  have hb0 : (bc == 0) = false := by simp [hb]
  simp only [crear_visita_body, hsel, hbed, hocc, hi0, hb0,
    Bool.false_eq_true, if_false]

/-- Witness for C5 at `S_dup`: the doctor claim matches one row, the bed
claim matches two (duplicated key), so the compensation runs and Open
fails with ResourceContention leaving the store unchanged. -/
theorem C5_witness :
    (∀ d ∈ (_ocupar_recursos S_dup 1 1 1).2.doctores,
      d.id_doctor = 1 → d.disponible = true) ∧
    crear_visita_tx P_A "t" S_dup = (.error .resourceContention, S_dup) :=
  C5_compensation S_dup P_A "t" 1 1 1 (by decide) (by decide) (by decide)
    (by decide) (by decide) (by decide)

/-- Claim C1: Open is all-or-nothing.  On any error the transaction rolls
back and the resulting store is exactly the initial one; on success the
claimed doctor row has `disponible=false`, the claimed bed row is OCUPADA,
and exactly one new ABIERTA visit referencing those resources (and
carrying the returned folio) has been appended. -/
theorem C1_open_all_or_nothing (p : Payload) (now : String) (s : Store) :
    (∀ e, (crear_visita_tx p now s).1 = .error e →
      (crear_visita_tx p now s).2 = s) ∧
    (∀ r s2, crear_visita_tx p now s = (.ok r, s2) →
      ∃ v, s2.visitas = s.visitas ++ [v] ∧
        v.estado = VisitaEstado.ABIERTA ∧ v.folio = r.folio ∧
        v.id_doctor = r.id_doctor ∧ v.id_cama = r.id_cama ∧
        v.id_sala = r.id_sala ∧ v.fecha_hora_inicio = now ∧
        (∃ d ∈ s2.doctores, d.id_doctor = r.id_doctor ∧
          d.disponible = false) ∧
        (∃ c ∈ s2.camas, c.id_cama = r.id_cama ∧ c.id_sala = r.id_sala ∧
          c.estado = CamaEstado.OCUPADA)) := by
  constructor
  · intro e he
    exact tx_error_state he
  · intro r s2 hok
    have hbody := tx_ok_inv hok
    obtain ⟨i, bc, br, s1, pid, tid, org, hsel, hi, hbed, hb, hocc, hpid,
      htid, horg, hr, hs2⟩ := crear_body_ok_spec hbody
    obtain ⟨hdcount, hccount, hs1⟩ := ocupar_true_spec hocc
    have hlen : 0 < (s.doctores.filter fun d =>
        d.id_doctor == i && d.disponible).length := by omega
    obtain ⟨x, hxf⟩ := List.exists_mem_of_length_pos hlen
    rw [List.mem_filter] at hxf
    have hclen : 0 < (s.camas.filter fun c => c.id_cama == bc &&
        c.id_sala == br && c.estado == CamaEstado.LIBRE).length := by omega
    obtain ⟨y, hyf⟩ := List.exists_mem_of_length_pos hclen
    rw [List.mem_filter] at hyf
    subst hs1
    subst hs2
    subst hr
    refine ⟨insertedVisita pid tid org p now s.next_folio i bc br,
      rfl, rfl, rfl, rfl, rfl, rfl, rfl, ?_, ?_⟩
    · refine ⟨{ x with disponible := false }, ?_, ?_, rfl⟩
      · have hmem := mem_map_update_of_mem
          (fun d => d.id_doctor == i && d.disponible)
          (fun d => { d with disponible := false }) hxf.1
        rw [if_pos hxf.2] at hmem
        exact hmem
      · have h2 := hxf.2
        rw [Bool.and_eq_true, beq_iff_eq] at h2
        exact h2.1
    · refine ⟨{ y with estado := CamaEstado.OCUPADA }, ?_, ?_, ?_, rfl⟩
      · have hmem := mem_map_update_of_mem
          (fun c => c.id_cama == bc && c.id_sala == br &&
            c.estado == CamaEstado.LIBRE)
          (fun c => { c with estado := CamaEstado.OCUPADA }) hyf.1
        rw [if_pos hyf.2] at hmem
        exact hmem
      · have h2 := hyf.2
        rw [Bool.and_eq_true, Bool.and_eq_true, beq_iff_eq] at h2
        exact h2.1.1
      · have h2 := hyf.2
        rw [Bool.and_eq_true, Bool.and_eq_true, beq_iff_eq, beq_iff_eq]
          at h2
        exact h2.1.2

/-- Witness for C1 at `S_A`: the successful Open appends exactly the one
new open visit and claims doctor 1 and bed (1,1). -/
theorem C1_witness :
    ∃ v, S_A2.visitas = S_A.visitas ++ [v] ∧
      v.estado = VisitaEstado.ABIERTA ∧ v.folio = 1 ∧ v.id_doctor = 1 ∧
      v.id_cama = 1 ∧ v.id_sala = 1 ∧ v.fecha_hora_inicio = "t" ∧
      (∃ d ∈ S_A2.doctores, d.id_doctor = 1 ∧ d.disponible = false) ∧
      (∃ c ∈ S_A2.camas, c.id_cama = 1 ∧ c.id_sala = 1 ∧
        c.estado = CamaEstado.OCUPADA) :=
  (C1_open_all_or_nothing P_A "t" S_A).2 ⟨1, 1, 1, 1⟩ S_A2 rfl

/-- Under unique nonzero keys, an eligible doctor and a free bed, Open's
selection phase returns usable ids and both conditional claims match
exactly one row. -/
theorem crear_reaches_claim (s : Store)
    (hndd : (s.doctores.map (·.id_doctor)).Nodup)
    (hndc : (s.camas.map fun c => (c.id_sala, c.id_cama)).Nodup)
    (hnzd : ∀ d ∈ s.doctores, d.id_doctor ≠ 0)
    (hnzc : ∀ c ∈ s.camas, c.id_cama ≠ 0)
    (helig : ∃ d ∈ s.doctores, d.activo = true ∧ d.disponible = true)
    (hfree : ∃ c ∈ s.camas, c.estado = CamaEstado.LIBRE) :
    ∃ i bc br,
      _seleccionar_doctor_disponible s = some i ∧ i ≠ 0 ∧
      _seleccionar_cama_libre s = some (bc, br) ∧ bc ≠ 0 ∧
      (s.doctores.filter fun d => d.id_doctor == i && d.disponible).length
        = 1 ∧
      (s.camas.filter fun c => c.id_cama == bc && c.id_sala == br &&
        c.estado == CamaEstado.LIBRE).length = 1 := by
  obtain ⟨i, hsel⟩ : ∃ i, _seleccionar_doctor_disponible s = some i := by
    cases hfm : _seleccionar_doctor_disponible s with
    | none =>
      rw [seleccionar_doctor_none_iff] at hfm
      obtain ⟨d, hd, ha, hv⟩ := helig
      exact absurd ⟨ha, hv⟩ (hfm d hd)
    | some j => exact ⟨j, rfl⟩
  obtain ⟨x, hxmem, hxi, hxa, hxd, _⟩ := seleccionar_doctor_some_spec hsel
  obtain ⟨bpair, hbsel⟩ : ∃ bp, _seleccionar_cama_libre s = some bp := by
    cases hfm : _seleccionar_cama_libre s with
    | none =>
      rw [seleccionar_cama_none_iff] at hfm
      obtain ⟨c, hc, hl⟩ := hfree
      exact absurd hl (hfm c hc)
    | some bp => exact ⟨bp, rfl⟩
  obtain ⟨bc, br⟩ := bpair
  obtain ⟨y, hymem, hyb, hyr, hyl⟩ := seleccionar_cama_some_spec hbsel
  refine ⟨i, bc, br, hsel, ?_, hbsel, ?_, ?_, ?_⟩
  · rw [← hxi]; exact hnzd x hxmem
  · rw [← hyb]; exact hnzc y hymem
  · rw [filter_eq_singleton_of_nodup_key hndd hxmem
      (by simp [hxi, hxd]) ?hkeyd]
    · rfl
    case hkeyd =>
      intro z hz hpz
      rw [Bool.and_eq_true, beq_iff_eq] at hpz
      rw [hpz.1, hxi]
  · rw [filter_eq_singleton_of_nodup_key hndc hymem
      (by simp [hyb, hyr, hyl]) ?hkeyc]
    · rfl
    case hkeyc =>
      intro z hz hpz
      rw [Bool.and_eq_true, Bool.and_eq_true, beq_iff_eq, beq_iff_eq] at hpz
      rw [hpz.1.1, hpz.1.2, hyb, hyr]

/-- Counterexample to Claim C2 as stated: `S_zero` has an eligible doctor
(id 0) and a free bed and the payload is complete, yet Open fails, because
`if not id_doctor` treats the selected integer id 0 like `None`. -/
theorem C2_counterexample :
    (∃ d ∈ S_zero.doctores, d.activo = true ∧ d.disponible = true) ∧
    (∃ c ∈ S_zero.camas, c.estado = CamaEstado.LIBRE) ∧
    P_A.id_paciente.isSome = true ∧ P_A.id_trabajador.isSome = true ∧
    P_A.origen_solicitud.isSome = true ∧
    (crear_visita_tx P_A "t" S_zero).1 = .error .noDoctorAvailable := by
  refine ⟨⟨⟨0, true, true⟩, by decide, by decide⟩, ⟨⟨1, 1, CamaEstado.LIBRE⟩,
    by decide, by decide⟩, by decide, by decide, by decide, ?_⟩
  rfl

/-- Claim C2 amended: additionally assuming the store keys are unique and
all doctor and bed ids are nonzero, Open succeeds whenever an eligible
doctor, a free bed, and the required payload fields exist: it appends one
ABIERTA visit carrying `opened_at = now`, the defaulted priority and
reason, and the selected ids; marks the selected doctor unavailable and
the selected bed OCUPADA; and returns exactly the selected resources with
the store-assigned folio. -/
theorem C2_open_success (s : Store) (p : Payload) (now : String)
    (hndd : (s.doctores.map (·.id_doctor)).Nodup)
    (hndc : (s.camas.map fun c => (c.id_sala, c.id_cama)).Nodup)
    (hnzd : ∀ d ∈ s.doctores, d.id_doctor ≠ 0)
    (hnzc : ∀ c ∈ s.camas, c.id_cama ≠ 0)
    (helig : ∃ d ∈ s.doctores, d.activo = true ∧ d.disponible = true)
    (hfree : ∃ c ∈ s.camas, c.estado = CamaEstado.LIBRE)
    (pid tid : Nat) (org : String)
    (hpid : p.id_paciente = some pid) (htid : p.id_trabajador = some tid)
    (horg : p.origen_solicitud = some org) :
    ∃ i bc br s2,
      _seleccionar_doctor_disponible s = some i ∧
      _seleccionar_cama_libre s = some (bc, br) ∧
      crear_visita_tx p now s =
        (.ok { folio := s.next_folio, id_doctor := i, id_cama := bc,
               id_sala := br }, s2) ∧
      s2.visitas = s.visitas ++
        [insertedVisita pid tid org p now s.next_folio i bc br] ∧
      (∃ d ∈ s2.doctores, d.id_doctor = i ∧ d.disponible = false) ∧
      (∃ c ∈ s2.camas, c.id_cama = bc ∧ c.id_sala = br ∧
        c.estado = CamaEstado.OCUPADA) := by
  obtain ⟨i, bc, br, hsel, hi, hbed, hb, hdcount, hccount⟩ :=
    crear_reaches_claim s hndd hndc hnzd hnzc helig hfree
  have hocc := ocupar_true_intro hdcount hccount
  have hbody := crear_body_ok_intro now hsel hi hbed hb hocc hpid htid horg
  have htx := tx_ok hbody
  have hlen : 0 < (s.doctores.filter fun d =>
      d.id_doctor == i && d.disponible).length := by omega
  obtain ⟨x, hxf⟩ := List.exists_mem_of_length_pos hlen
  rw [List.mem_filter] at hxf
  have hclen : 0 < (s.camas.filter fun c => c.id_cama == bc &&
      c.id_sala == br && c.estado == CamaEstado.LIBRE).length := by omega
  obtain ⟨y, hyf⟩ := List.exists_mem_of_length_pos hclen
  rw [List.mem_filter] at hyf
  refine ⟨i, bc, br, _, hsel, hbed, htx, rfl, ?_, ?_⟩
  · refine ⟨{ x with disponible := false }, ?_, ?_, rfl⟩
    · have hmem := mem_map_update_of_mem
        (fun d => d.id_doctor == i && d.disponible)
        (fun d => { d with disponible := false }) hxf.1
      rw [if_pos hxf.2] at hmem
      exact hmem
    · have h2 := hxf.2
      rw [Bool.and_eq_true, beq_iff_eq] at h2
      exact h2.1
  · refine ⟨{ y with estado := CamaEstado.OCUPADA }, ?_, ?_, ?_, rfl⟩
    · have hmem := mem_map_update_of_mem
        (fun c => c.id_cama == bc && c.id_sala == br &&
          c.estado == CamaEstado.LIBRE)
        (fun c => { c with estado := CamaEstado.OCUPADA }) hyf.1
      rw [if_pos hyf.2] at hmem
      exact hmem
    · have h2 := hyf.2
      rw [Bool.and_eq_true, Bool.and_eq_true, beq_iff_eq] at h2
      exact h2.1.1
    · have h2 := hyf.2
      rw [Bool.and_eq_true, Bool.and_eq_true, beq_iff_eq, beq_iff_eq] at h2
      exact h2.1.2

/-- Witness for the amended C2 at `S_A`. -/
theorem C2_witness :
    ∃ i bc br s2,
      _seleccionar_doctor_disponible S_A = some i ∧
      _seleccionar_cama_libre S_A = some (bc, br) ∧
      crear_visita_tx P_A "t" S_A =
        (.ok { folio := S_A.next_folio, id_doctor := i, id_cama := bc,
               id_sala := br }, s2) ∧
      s2.visitas = S_A.visitas ++
        [insertedVisita 1 9 "walk-in" P_A "t" S_A.next_folio i bc br] ∧
      (∃ d ∈ s2.doctores, d.id_doctor = i ∧ d.disponible = false) ∧
      (∃ c ∈ s2.camas, c.id_cama = bc ∧ c.id_sala = br ∧
        c.estado = CamaEstado.OCUPADA) :=
  C2_open_success S_A P_A "t" (by decide) (by decide) (by decide)
    (by decide) ⟨⟨1, true, true⟩, by decide, by decide⟩
    ⟨⟨1, 1, CamaEstado.LIBRE⟩, by decide, by decide⟩ 1 9 "walk-in"
    (by decide) (by decide) (by decide)

theorem tx_fst_error_iff {body : Store → Except Err (α × Store)} {s : Store}
    {e : Err} : (tx body s).1 = .error e ↔ body s = .error e := by
  unfold tx
  cases hb : body s with
  | ok pr =>
    obtain ⟨a, s1⟩ := pr
    simp
  | error e2 => simp

theorem crear_body_ne_noDoctor {s : Store} {p : Payload} {now : String}
    {i : Nat} (hsel : _seleccionar_doctor_disponible s = some i)
    (hi : i ≠ 0) :
    crear_visita_body p now s ≠ .error .noDoctorAvailable := by
  have hi0 : (i == 0) = false := by simp [hi]
  simp only [crear_visita_body, hsel, hi0, Bool.false_eq_true, if_false]
  cases hbed2 : _seleccionar_cama_libre s with
  | none => simp
  | some bp =>
    obtain ⟨bc, br⟩ := bp
    by_cases hb0 : (bc == 0) = true
    · simp [hb0]
    · rw [Bool.not_eq_true] at hb0
      simp only [hb0, Bool.false_eq_true, if_false]
      rcases hocc2 : _ocupar_recursos s i bc br with ⟨b1, t⟩
      cases b1
      · simp
      · cases hpp : p.id_paciente with
        | none => simp
        | some pid =>
          cases hpt : p.id_trabajador with
          | none => simp
          | some tid =>
            cases hpo : p.origen_solicitud with
            | none => simp
            | some org => simp

theorem crear_body_ne_noBed {s : Store} {p : Payload} {now : String}
    {i bc br : Nat} (hsel : _seleccionar_doctor_disponible s = some i)
    (hi : i ≠ 0) (hbed : _seleccionar_cama_libre s = some (bc, br))
    (hb : bc ≠ 0) :
    crear_visita_body p now s ≠ .error .noBedAvailable := by
  have hi0 : (i == 0) = false := by simp [hi]
  have hb0 : (bc == 0) = false := by simp [hb]
  simp only [crear_visita_body, hsel, hi0, hbed, hb0, Bool.false_eq_true,
    if_false]
  rcases hocc2 : _ocupar_recursos s i bc br with ⟨b1, t⟩
  cases b1
  · simp
  · cases hpp : p.id_paciente with
    | none => simp
    | some pid =>
      cases hpt : p.id_trabajador with
      | none => simp
      | some tid =>
        cases hpo : p.origen_solicitud with
        | none => simp
        | some org => simp

theorem seleccionar_doctor_some_nonzero {s : Store}
    (hnzd : ∀ d ∈ s.doctores, d.id_doctor ≠ 0)
    (helig : ∃ d ∈ s.doctores, d.activo = true ∧ d.disponible = true) :
    ∃ i, _seleccionar_doctor_disponible s = some i ∧ i ≠ 0 := by
  obtain ⟨i, hsel⟩ : ∃ i, _seleccionar_doctor_disponible s = some i := by
    cases hfm : _seleccionar_doctor_disponible s with
    | none =>
      rw [seleccionar_doctor_none_iff] at hfm
      obtain ⟨d, hd, ha, hv⟩ := helig
      exact absurd ⟨ha, hv⟩ (hfm d hd)
    | some j => exact ⟨j, rfl⟩
  obtain ⟨x, hxmem, hxi, _, _, _⟩ := seleccionar_doctor_some_spec hsel
  exact ⟨i, hsel, hxi ▸ hnzd x hxmem⟩

/-- Counterexample to Claim C6 as stated: in `S_zero` the eligible-doctor
set is nonempty, yet Open fails with NoDoctorAvailable, because the
selected doctor id 0 is falsy in Python. -/
theorem C6_counterexample :
    (crear_visita_tx P_A "t" S_zero).1 = .error .noDoctorAvailable ∧
    ¬(∀ d ∈ S_zero.doctores, ¬(d.activo = true ∧ d.disponible = true)) :=
  ⟨rfl, by intro h; exact absurd ⟨rfl, rfl⟩ (h ⟨0, true, true⟩ (by decide))⟩

/-- Claim C6 amended: provided every doctor id and bed id is nonzero, Open
fails with NoDoctorAvailable exactly when no doctor is active and
available, and — when an eligible doctor exists — fails with
NoBedAvailable exactly when no bed is LIBRE; any error leaves the store
unchanged (zero writes). -/
theorem C6_resource_error_iff (s : Store) (p : Payload) (now : String)
    (hnzd : ∀ d ∈ s.doctores, d.id_doctor ≠ 0)
    (hnzc : ∀ c ∈ s.camas, c.id_cama ≠ 0) :
    ((crear_visita_tx p now s).1 = .error .noDoctorAvailable ↔
      ∀ d ∈ s.doctores, ¬(d.activo = true ∧ d.disponible = true)) ∧
    ((∃ d ∈ s.doctores, d.activo = true ∧ d.disponible = true) →
      ((crear_visita_tx p now s).1 = .error .noBedAvailable ↔
        ∀ c ∈ s.camas, c.estado ≠ CamaEstado.LIBRE)) ∧
    (∀ e, (crear_visita_tx p now s).1 = .error e →
      (crear_visita_tx p now s).2 = s) := by
  refine ⟨⟨?_, ?_⟩, ?_, fun e he => tx_error_state he⟩
  · intro hfst
    unfold crear_visita_tx at hfst
    rw [tx_fst_error_iff] at hfst
    by_contra hne
    rw [← seleccionar_doctor_none_iff] at hne
    push_neg at hne
    have helig : ∃ d ∈ s.doctores, d.activo = true ∧ d.disponible = true := by
      by_contra hno
      push_neg at hno
      exact hne ((seleccionar_doctor_none_iff s).mpr fun d hd hdp =>
        hno d hd hdp.1 hdp.2)
    obtain ⟨i, hsel, hi⟩ := seleccionar_doctor_some_nonzero hnzd helig
    exact crear_body_ne_noDoctor hsel hi hfst
  · intro hempty
    unfold crear_visita_tx
    rw [tx_fst_error_iff]
    have hsel : _seleccionar_doctor_disponible s = none :=
      (seleccionar_doctor_none_iff s).mpr hempty
    simp [crear_visita_body, hsel]
  · intro helig
    obtain ⟨i, hsel, hi⟩ := seleccionar_doctor_some_nonzero hnzd helig
    have hi0 : (i == 0) = false := by simp [hi]
    constructor
    · intro hfst
      unfold crear_visita_tx at hfst
      rw [tx_fst_error_iff] at hfst
      by_contra hne
      push_neg at hne
      obtain ⟨c, hc, hl⟩ := hne
      obtain ⟨bc2, hbsel⟩ : ∃ bp, _seleccionar_cama_libre s = some bp := by
        cases hfm : _seleccionar_cama_libre s with
        | none =>
          rw [seleccionar_cama_none_iff] at hfm
          exact absurd hl (hfm c hc)
        | some bp => exact ⟨bp, rfl⟩
      obtain ⟨bc, br⟩ := bc2
      obtain ⟨y, hymem, hyb, _, _⟩ := seleccionar_cama_some_spec hbsel
      exact crear_body_ne_noBed hsel hi hbsel (hyb ▸ hnzc y hymem) hfst
    · intro hnofree
      unfold crear_visita_tx
      rw [tx_fst_error_iff]
      have hbsel : _seleccionar_cama_libre s = none :=
        (seleccionar_cama_none_iff s).mpr hnofree
      simp [crear_visita_body, hsel, hi0, hbsel]

/-- Witness for the amended C6 at `S_A` (nonzero ids): both
characterizations and the zero-writes property hold there. -/
theorem C6_witness :
    ((crear_visita_tx P_A "t" S_A).1 = .error .noDoctorAvailable ↔
      ∀ d ∈ S_A.doctores, ¬(d.activo = true ∧ d.disponible = true)) ∧
    ((∃ d ∈ S_A.doctores, d.activo = true ∧ d.disponible = true) →
      ((crear_visita_tx P_A "t" S_A).1 = .error .noBedAvailable ↔
        ∀ c ∈ S_A.camas, c.estado ≠ CamaEstado.LIBRE)) ∧
    (∀ e, (crear_visita_tx P_A "t" S_A).1 = .error e →
      (crear_visita_tx P_A "t" S_A).2 = S_A) :=
  C6_resource_error_iff S_A P_A "t" (by decide) (by decide)

/-- Counterexample to Claim C8 as stated: the payload is missing the
required patient id, yet on an empty store Open fails with
NoDoctorAvailable — the missing field is not detected before the store
interaction (doctor selection runs first), and no ValidationError-like
failure is raised ahead of it. -/
theorem C8_counterexample :
    P_missing.id_paciente = none ∧
    crear_visita_tx P_missing "t" S_empty =
      (.error .noDoctorAvailable, S_empty) :=
  ⟨rfl, rfl⟩

/-- Claim C8 amended: a payload missing a required field makes Open fail
with a `KeyError` naming the first missing key in INSERT-tuple order, but
the check happens only when the INSERT arguments are built — after doctor
and bed selection and after both resource claims succeed — and the
transaction rollback leaves the store unchanged. -/
theorem C8_missing_field_keyerror (s : Store) (p : Payload) (now : String)
    (hndd : (s.doctores.map (·.id_doctor)).Nodup)
    (hndc : (s.camas.map fun c => (c.id_sala, c.id_cama)).Nodup)
    (hnzd : ∀ d ∈ s.doctores, d.id_doctor ≠ 0)
    (hnzc : ∀ c ∈ s.camas, c.id_cama ≠ 0)
    (helig : ∃ d ∈ s.doctores, d.activo = true ∧ d.disponible = true)
    (hfree : ∃ c ∈ s.camas, c.estado = CamaEstado.LIBRE)
    (hmiss : p.id_paciente = none ∨ p.id_trabajador = none ∨
      p.origen_solicitud = none) :
    crear_visita_tx p now s = (.error (.keyError
      (if p.id_paciente = none then "id_paciente"
       else if p.id_trabajador = none then "id_trabajador"
       else "origen_solicitud")), s) := by
  obtain ⟨i, bc, br, hsel, hi, hbed, hb, hdcount, hccount⟩ :=
    crear_reaches_claim s hndd hndc hnzd hnzc helig hfree
  have hocc := ocupar_true_intro hdcount hccount
  have hi0 : (i == 0) = false := by simp [hi]
  have hb0 : (bc == 0) = false := by simp [hb]
  apply tx_err
  cases hpp : p.id_paciente with
  | none => simp [crear_visita_body, hsel, hbed, hocc, hi0, hb0, hpp]
  | some pid =>
    cases hpt : p.id_trabajador with
    | none => simp [crear_visita_body, hsel, hbed, hocc, hi0, hb0, hpp, hpt]
    | some tid =>
      cases hpo : p.origen_solicitud with
      | none =>
        simp [crear_visita_body, hsel, hbed, hocc, hi0, hb0, hpp, hpt, hpo]
      | some org =>
        rcases hmiss with h | h | h <;> simp_all

/-- Witness for the amended C8 at `S_A` with `P_missing`: Open fails with
`KeyError` on the missing patient id and the store is unchanged. -/
theorem C8_witness :
    crear_visita_tx P_missing "t" S_A = (.error (.keyError
      (if P_missing.id_paciente = none then "id_paciente"
       else if P_missing.id_trabajador = none then "id_trabajador"
       else "origen_solicitud")), S_A) :=
  C8_missing_field_keyerror S_A P_missing "t" (by decide) (by decide)
    (by decide) (by decide) ⟨⟨1, true, true⟩, by decide, by decide⟩
    ⟨⟨1, 1, CamaEstado.LIBRE⟩, by decide, by decide⟩ (Or.inl rfl)

/-- Claim C3: closing an existing OPEN visit succeeds and afterwards that
visit is CERRADA with `closed_at = now`, its doctor is available again,
and its bed is LIBRE (assuming folios are unique and the referenced doctor
and bed rows exist, which foreign keys guarantee). -/
theorem C3_close_success (s : Store) (now : String) (x : Visita)
    (hnd : (s.visitas.map (·.folio)).Nodup)
    (hx : x ∈ s.visitas) (hopen : x.estado = VisitaEstado.ABIERTA)
    (hdoc : ∃ d ∈ s.doctores, d.id_doctor = x.id_doctor)
    (hbed : ∃ c ∈ s.camas, c.id_cama = x.id_cama ∧ c.id_sala = x.id_sala) :
    ∃ s3, cerrar_visita_tx x.folio now s = (.ok (), s3) ∧
      (∀ v ∈ s3.visitas, v.folio = x.folio →
        v.estado = VisitaEstado.CERRADA ∧ v.fecha_hora_cierre = some now) ∧
      (∃ d ∈ s3.doctores, d.id_doctor = x.id_doctor ∧
        d.disponible = true) ∧
      (∃ c ∈ s3.camas, c.id_cama = x.id_cama ∧ c.id_sala = x.id_sala ∧
        c.estado = CamaEstado.LIBRE) := by
  have hfull := cerrar_body_ok_full now hnd hx rfl hopen
  refine ⟨_, tx_ok hfull, ?_, ?_, ?_⟩
  · intro v hv hvf
    dsimp only at hv
    rw [List.mem_map] at hv
    obtain ⟨y, hy, hyv⟩ := hv
    by_cases hp : (y.folio == x.folio && y.estado == VisitaEstado.ABIERTA)
      = true
    · rw [if_pos hp] at hyv
      rw [← hyv]
      exact ⟨rfl, rfl⟩
    · rw [if_neg hp] at hyv
      subst hyv
      have hyx : y = x := List.inj_on_of_nodup_map hnd hy hx hvf
      subst hyx
      exact absurd (by simp [hvf, hopen]) hp
  · obtain ⟨d, hd, hdi⟩ := hdoc
    refine ⟨{ d with disponible := true }, ?_, hdi, rfl⟩
    dsimp only
    have hmem := mem_map_update_of_mem
      (fun e => e.id_doctor == x.id_doctor)
      (fun e => { e with disponible := true }) hd
    rw [if_pos (by simp [hdi])] at hmem
    exact hmem
  · obtain ⟨c, hc, hcb, hcr⟩ := hbed
    refine ⟨{ c with estado := CamaEstado.LIBRE }, ?_, hcb, hcr, rfl⟩
    dsimp only
    have hmem := mem_map_update_of_mem
      (fun e => e.id_cama == x.id_cama && e.id_sala == x.id_sala)
      (fun e => { e with estado := CamaEstado.LIBRE }) hc
    rw [if_pos (by simp [hcb, hcr])] at hmem
    exact hmem

/-- Witness for C3: closing the open visit of `S_close` succeeds, the
visit ends CERRADA with a close timestamp, doctor 1 is available again,
and bed (1,1) is LIBRE. -/
theorem C3_witness :
    ∃ s3, cerrar_visita_tx V_close.folio "u" S_close = (.ok (), s3) ∧
      (∀ v ∈ s3.visitas, v.folio = V_close.folio →
        v.estado = VisitaEstado.CERRADA ∧
        v.fecha_hora_cierre = some "u") ∧
      (∃ d ∈ s3.doctores, d.id_doctor = V_close.id_doctor ∧
        d.disponible = true) ∧
      (∃ c ∈ s3.camas, c.id_cama = V_close.id_cama ∧
        c.id_sala = V_close.id_sala ∧ c.estado = CamaEstado.LIBRE) :=
  C3_close_success S_close "u" V_close (by decide) (by decide) (by decide)
    ⟨⟨1, true, false⟩, by decide, by decide⟩
    ⟨⟨1, 1, CamaEstado.OCUPADA⟩, by decide, by decide, by decide⟩

/-! ### Invariant and counting lemmas for C9 -/

theorem rowInv_pairwise_symm :
    Symmetric fun v w : Visita => v.estado = VisitaEstado.ABIERTA →
      w.estado = VisitaEstado.ABIERTA →
      v.id_doctor ≠ w.id_doctor ∧
      (v.id_cama, v.id_sala) ≠ (w.id_cama, w.id_sala) := by
  intro a b hab hb ha
  obtain ⟨h1, h2⟩ := hab ha hb
  exact ⟨h1.symm, h2.symm⟩

theorem countsEq_of_good {s : Store} (hg : GoodState s) : countsEq s := by
  obtain ⟨hwf, hfk, hinv⟩ := hg
  constructor
  · have hBnodup : ((s.visitas.filter fun v =>
        v.estado == VisitaEstado.ABIERTA).map (·.id_doctor)).Nodup := by
      unfold List.Nodup
      rw [List.pairwise_map]
      refine (hinv.2.2.filter fun v =>
        v.estado == VisitaEstado.ABIERTA).imp_of_mem ?_
      intro a b ha hb hr
      rw [List.mem_filter] at ha hb
      exact (hr (by simpa using ha.2) (by simpa using hb.2)).1
    have hAkeys : ((s.doctores.filter fun d => !d.disponible).map
        (·.id_doctor)).Nodup :=
      hwf.1.sublist ((List.filter_sublist _).map _)
    have hset : ((s.doctores.filter fun d => !d.disponible).map
        (·.id_doctor)).toFinset =
        ((s.visitas.filter fun v =>
          v.estado == VisitaEstado.ABIERTA).map (·.id_doctor)).toFinset := by
      ext i
      simp only [List.mem_toFinset, List.mem_map, List.mem_filter]
      constructor
      · rintro ⟨d, ⟨hd, hdisp⟩, rfl⟩
        have hdf : d.disponible = false := by simpa using hdisp
        obtain ⟨v, hv, hvo, hvr⟩ := (hinv.1 d hd).mp hdf
        exact ⟨v, ⟨hv, by simp [hvo]⟩, hvr⟩
      · rintro ⟨v, ⟨hv, hvo⟩, rfl⟩
        have hvo2 : v.estado = VisitaEstado.ABIERTA := by simpa using hvo
        obtain ⟨d, hd, hdi⟩ := hfk.1 v hv hvo2
        have hdf : d.disponible = false :=
          (hinv.1 d hd).mpr ⟨v, hv, hvo2, hdi.symm⟩
        exact ⟨d, ⟨hd, by simp [hdf]⟩, hdi⟩
    calc (s.doctores.filter fun d => !d.disponible).length
        = ((s.doctores.filter fun d => !d.disponible).map
            (·.id_doctor)).length := (List.length_map _ _).symm
      _ = ((s.doctores.filter fun d => !d.disponible).map
            (·.id_doctor)).toFinset.card :=
          (List.toFinset_card_of_nodup hAkeys).symm
      _ = ((s.visitas.filter fun v =>
            v.estado == VisitaEstado.ABIERTA).map
            (·.id_doctor)).toFinset.card := by rw [hset]
      _ = ((s.visitas.filter fun v =>
            v.estado == VisitaEstado.ABIERTA).map (·.id_doctor)).length :=
          List.toFinset_card_of_nodup hBnodup
      _ = ((s.visitas.filter fun v =>
            v.estado == VisitaEstado.ABIERTA).map
            (·.id_doctor)).dedup.length := by
          rw [List.dedup_eq_self.mpr hBnodup]
  · have hBnodup : ((s.visitas.filter fun v =>
        v.estado == VisitaEstado.ABIERTA).map
          fun v => (v.id_sala, v.id_cama)).Nodup := by
      unfold List.Nodup
      rw [List.pairwise_map]
      refine (hinv.2.2.filter fun v =>
        v.estado == VisitaEstado.ABIERTA).imp_of_mem ?_
      intro a b ha hb hr
      rw [List.mem_filter] at ha hb
      have hk := (hr (by simpa using ha.2) (by simpa using hb.2)).2
      intro heq
      rw [Prod.mk.injEq] at heq
      exact hk (by rw [Prod.mk.injEq]; exact ⟨heq.2, heq.1⟩)
    have hAkeys : ((s.camas.filter fun c =>
        c.estado == CamaEstado.OCUPADA).map
          fun c => (c.id_sala, c.id_cama)).Nodup :=
      hwf.2.1.sublist ((List.filter_sublist _).map _)
    have hset : ((s.camas.filter fun c =>
        c.estado == CamaEstado.OCUPADA).map
          fun c => (c.id_sala, c.id_cama)).toFinset =
        ((s.visitas.filter fun v =>
          v.estado == VisitaEstado.ABIERTA).map
            fun v => (v.id_sala, v.id_cama)).toFinset := by
      ext i
      simp only [List.mem_toFinset, List.mem_map, List.mem_filter]
      constructor
      · rintro ⟨c, ⟨hc, hocc⟩, rfl⟩
        have hco : c.estado = CamaEstado.OCUPADA := by simpa using hocc
        obtain ⟨v, hv, hvo, hvb, hvr⟩ := (hinv.2.1 c hc).mp hco
        refine ⟨v, ⟨hv, by simp [hvo]⟩, ?_⟩
        rw [Prod.mk.injEq]
        exact ⟨hvr, hvb⟩
      · rintro ⟨v, ⟨hv, hvo⟩, rfl⟩
        have hvo2 : v.estado = VisitaEstado.ABIERTA := by simpa using hvo
        obtain ⟨c, hc, hcb, hcr⟩ := hfk.2 v hv hvo2
        have hco : c.estado = CamaEstado.OCUPADA :=
          (hinv.2.1 c hc).mpr ⟨v, hv, hvo2, hcb.symm, hcr.symm⟩
        refine ⟨c, ⟨hc, by simp [hco]⟩, ?_⟩
        rw [Prod.mk.injEq]
        exact ⟨hcr, hcb⟩
    calc (s.camas.filter fun c => c.estado == CamaEstado.OCUPADA).length
        = ((s.camas.filter fun c => c.estado == CamaEstado.OCUPADA).map
            fun c => (c.id_sala, c.id_cama)).length :=
          (List.length_map _ _).symm
      _ = ((s.camas.filter fun c => c.estado == CamaEstado.OCUPADA).map
            fun c => (c.id_sala, c.id_cama)).toFinset.card :=
          (List.toFinset_card_of_nodup hAkeys).symm
      _ = ((s.visitas.filter fun v =>
            v.estado == VisitaEstado.ABIERTA).map
            fun v => (v.id_sala, v.id_cama)).toFinset.card := by rw [hset]
      _ = ((s.visitas.filter fun v =>
            v.estado == VisitaEstado.ABIERTA).map
            fun v => (v.id_sala, v.id_cama)).length :=
          List.toFinset_card_of_nodup hBnodup
      _ = ((s.visitas.filter fun v =>
            v.estado == VisitaEstado.ABIERTA).map
            fun v => (v.id_sala, v.id_cama)).dedup.length := by
          rw [List.dedup_eq_self.mpr hBnodup]

theorem tx_error_inv {body : Store → Except Err (α × Store)} {s s2 : Store}
    {e : Err} (h : tx body s = (.error e, s2)) :
    body s = .error e ∧ s2 = s := by
  unfold tx at h
  cases hb : body s with
  | ok pr =>
    obtain ⟨a, t⟩ := pr
    rw [hb] at h
    rw [Prod.mk.injEq] at h
    exact absurd h.1 (by simp)
  | error e2 =>
    rw [hb] at h
    rw [Prod.mk.injEq] at h
    obtain ⟨h1, h2⟩ := h
    injection h1 with h1
    subst h1
    exact ⟨rfl, h2.symm⟩

theorem map_key_of_update {β : Type} (k : α → β) (p : α → Bool) (f : α → α)
    (hkf : ∀ x, k (f x) = k x) (l : List α) :
    ((l.map fun x => if p x then f x else x).map k) = l.map k := by
  rw [List.map_map]
  apply List.map_congr_left
  intro a ha
  by_cases hp : p a = true
  · simp only [Function.comp_apply, if_pos hp, hkf]
  · simp only [Function.comp_apply, if_neg hp]

theorem update_key_eq {β : Type} (k : α → β) (p : α → Bool) (f : α → α)
    (hkf : ∀ x, k (f x) = k x) (x : α) :
    k (if p x then f x else x) = k x := by
  by_cases hp : p x = true
  · rw [if_pos hp, hkf]
  · rw [if_neg hp]


theorem crear_body_ok_fields {p : Payload} {now : String} {s : Store}
    {r : CrearResult} {s2 : Store}
    (h : crear_visita_body p now s = .ok (r, s2)) :
    ∃ i bc br pid tid org,
      _seleccionar_doctor_disponible s = some i ∧ i ≠ 0 ∧
      _seleccionar_cama_libre s = some (bc, br) ∧ bc ≠ 0 ∧
      p.id_paciente = some pid ∧ p.id_trabajador = some tid ∧
      p.origen_solicitud = some org ∧
      (s.doctores.filter fun d => d.id_doctor == i && d.disponible).length
        = 1 ∧
      (s.camas.filter fun c => c.id_cama == bc && c.id_sala == br &&
        c.estado == CamaEstado.LIBRE).length = 1 ∧
      r = { folio := s.next_folio, id_doctor := i, id_cama := bc,
            id_sala := br } ∧
      s2.doctores = (s.doctores.map fun d =>
        if d.id_doctor == i && d.disponible
        then { d with disponible := false } else d) ∧
      s2.camas = (s.camas.map fun c =>
        if c.id_cama == bc && c.id_sala == br &&
          c.estado == CamaEstado.LIBRE
        then { c with estado := CamaEstado.OCUPADA } else c) ∧
      s2.visitas = s.visitas ++
        [insertedVisita pid tid org p now s.next_folio i bc br] ∧
      s2.next_folio = s.next_folio + 1 := by
  obtain ⟨i, bc, br, s1, pid, tid, org, hsel, hi, hbed, hb, hocc, hpid,
    htid, horg, hr, hs2⟩ := crear_body_ok_spec h
  obtain ⟨hd, hc, hs1⟩ := ocupar_true_spec hocc
  subst hs1
  subst hs2
  subst hr
  exact ⟨i, bc, br, pid, tid, org, hsel, hi, hbed, hb, hpid, htid, horg,
    hd, hc, rfl, rfl, rfl, rfl, rfl⟩

theorem good_crear (p : Payload) (now : String) (s : Store)
    (hg : GoodState s) : GoodState (crear_visita_tx p now s).2 := by
  cases hres : crear_visita_body p now s with
  | error e =>
    have htx := tx_err hres
    unfold crear_visita_tx
    rw [htx]
    exact hg
  | ok pr =>
    obtain ⟨r, s2⟩ := pr
    have htx := tx_ok hres
    unfold crear_visita_tx
    rw [htx]
    dsimp only
    obtain ⟨i, bc, br, pid, tid, org, hsel, hi, hbed, hb, hpid, htid, horg,
      hdcount, hccount, hr, hdoc, hcam, hvis, hnf⟩ :=
      crear_body_ok_fields hres
    obtain ⟨hwf, hfk, hinv⟩ := hg
    have hlen : 0 < (s.doctores.filter fun d =>
        d.id_doctor == i && d.disponible).length := by omega
    obtain ⟨x, hxf⟩ := List.exists_mem_of_length_pos hlen
    rw [List.mem_filter, Bool.and_eq_true, beq_iff_eq] at hxf
    have hclen : 0 < (s.camas.filter fun c => c.id_cama == bc &&
        c.id_sala == br && c.estado == CamaEstado.LIBRE).length := by omega
    obtain ⟨y, hyf⟩ := List.exists_mem_of_length_pos hclen
    rw [List.mem_filter, Bool.and_eq_true, Bool.and_eq_true, beq_iff_eq,
      beq_iff_eq, beq_iff_eq] at hyf
    have hno_doc : ¬∃ w ∈ s.visitas, w.estado = VisitaEstado.ABIERTA ∧
        w.id_doctor = i := by
      rintro ⟨w, hw, hwo, hwr⟩
      have hx2 := (hinv.1 x hxf.1).mpr ⟨w, hw, hwo, by rw [hwr, hxf.2.1]⟩
      rw [hxf.2.2] at hx2
      simp at hx2
    have hno_bed : ¬∃ w ∈ s.visitas, w.estado = VisitaEstado.ABIERTA ∧
        w.id_cama = bc ∧ w.id_sala = br := by
      rintro ⟨w, hw, hwo, hwb, hwr⟩
      have hy2 := (hinv.2.1 y hyf.1).mpr
        ⟨w, hw, hwo, by rw [hwb, hyf.2.1.1], by rw [hwr, hyf.2.1.2]⟩
      rw [hyf.2.2] at hy2
      simp at hy2
    refine ⟨⟨?_, ?_, ?_, ?_⟩, ⟨?_, ?_⟩, ?_, ?_, ?_⟩
    · rw [hdoc, map_key_of_update (fun d : Doctor => d.id_doctor)
        (fun d : Doctor => d.id_doctor == i && d.disponible)
        (fun d : Doctor => { d with disponible := false }) fun e => rfl]
      exact hwf.1
    · rw [hcam, map_key_of_update (fun c : Cama => (c.id_sala, c.id_cama))
        (fun c : Cama => c.id_cama == bc && c.id_sala == br &&
          c.estado == CamaEstado.LIBRE)
        (fun c : Cama => { c with estado := CamaEstado.OCUPADA }) fun e => rfl]
      exact hwf.2.1
    · rw [hvis, List.map_append, List.nodup_append]
      refine ⟨hwf.2.2.1, by simp, ?_⟩
      intro a ha hb2
      rw [List.mem_map] at ha
      obtain ⟨w, hw, hwa⟩ := ha
      have hlt := hwf.2.2.2 w hw
      rw [List.map_singleton, List.mem_singleton] at hb2
      rw [hb2] at hwa
      rw [hwa] at hlt
      exact absurd rfl (Nat.ne_of_lt hlt)
    · rw [hvis, hnf]
      intro w hw
      rcases List.mem_append.mp hw with hw2 | hw2
      · exact Nat.lt_succ_of_lt (hwf.2.2.2 w hw2)
      · rw [List.mem_singleton] at hw2
        rw [hw2]
        exact Nat.lt_succ_self _
    · rw [hvis, hdoc]
      intro w hw hwo
      rcases List.mem_append.mp hw with hw2 | hw2
      · obtain ⟨d, hd, hdi⟩ := hfk.1 w hw2 hwo
        refine ⟨if d.id_doctor == i && d.disponible
            then { d with disponible := false } else d,
          List.mem_map_of_mem _ hd, ?_⟩
        rw [update_key_eq (fun d : Doctor => d.id_doctor)
          (fun d : Doctor => d.id_doctor == i && d.disponible)
          (fun d : Doctor => { d with disponible := false }) (fun e => rfl) d]
        exact hdi
      · rw [List.mem_singleton] at hw2
        subst hw2
        refine ⟨if x.id_doctor == i && x.disponible
            then { x with disponible := false } else x,
          List.mem_map_of_mem _ hxf.1, ?_⟩
        rw [update_key_eq (fun d : Doctor => d.id_doctor)
          (fun d : Doctor => d.id_doctor == i && d.disponible)
          (fun d : Doctor => { d with disponible := false }) (fun e => rfl) x]
        exact hxf.2.1
    · rw [hvis, hcam]
      intro w hw hwo
      rcases List.mem_append.mp hw with hw2 | hw2
      · obtain ⟨c, hc, hcb, hcr⟩ := hfk.2 w hw2 hwo
        refine ⟨if c.id_cama == bc && c.id_sala == br &&
              c.estado == CamaEstado.LIBRE
            then { c with estado := CamaEstado.OCUPADA } else c,
          List.mem_map_of_mem _ hc,
          by rw [update_key_eq (fun c : Cama => c.id_cama)
               (fun c : Cama => c.id_cama == bc && c.id_sala == br &&
                 c.estado == CamaEstado.LIBRE)
               (fun c : Cama => { c with estado := CamaEstado.OCUPADA })
               (fun e2 => rfl) c]
             exact hcb,
          by rw [update_key_eq (fun c : Cama => c.id_sala)
               (fun c : Cama => c.id_cama == bc && c.id_sala == br &&
                 c.estado == CamaEstado.LIBRE)
               (fun c : Cama => { c with estado := CamaEstado.OCUPADA })
               (fun e2 => rfl) c]
             exact hcr⟩
      · rw [List.mem_singleton] at hw2
        subst hw2
        refine ⟨if y.id_cama == bc && y.id_sala == br &&
              y.estado == CamaEstado.LIBRE
            then { y with estado := CamaEstado.OCUPADA } else y,
          List.mem_map_of_mem _ hyf.1,
          by rw [update_key_eq (fun c : Cama => c.id_cama)
               (fun c : Cama => c.id_cama == bc && c.id_sala == br &&
                 c.estado == CamaEstado.LIBRE)
               (fun c : Cama => { c with estado := CamaEstado.OCUPADA })
               (fun e2 => rfl) y]
             exact hyf.2.1.1,
          by rw [update_key_eq (fun c : Cama => c.id_sala)
               (fun c : Cama => c.id_cama == bc && c.id_sala == br &&
                 c.estado == CamaEstado.LIBRE)
               (fun c : Cama => { c with estado := CamaEstado.OCUPADA })
               (fun e2 => rfl) y]
             exact hyf.2.1.2⟩
    · rw [hdoc, hvis]
      intro d2 hd2
      rw [List.mem_map] at hd2
      obtain ⟨d0, hd0, hd0e⟩ := hd2
      by_cases hpd : (d0.id_doctor == i && d0.disponible) = true
      · rw [if_pos hpd] at hd0e
        subst hd0e
        rw [Bool.and_eq_true, beq_iff_eq] at hpd
        constructor
        · intro _
          exact ⟨insertedVisita pid tid org p now s.next_folio i bc br,
            List.mem_append_right _ (List.mem_singleton_self _), rfl,
            hpd.1.symm⟩
        · intro _
          rfl
      · rw [if_neg hpd] at hd0e
        subst hd0e
        by_cases hid : d0.id_doctor = i
        · have hdisp : d0.disponible = false := by
            rw [Bool.and_eq_true, beq_iff_eq] at hpd
            push_neg at hpd
            cases hdb : d0.disponible with
            | false => rfl
            | true => exact absurd hdb (hpd hid)
          constructor
          · intro _
            exact ⟨insertedVisita pid tid org p now s.next_folio i bc br,
              List.mem_append_right _ (List.mem_singleton_self _), rfl,
              hid.symm⟩
          · intro _
            exact hdisp
        · constructor
          · intro hdisp
            obtain ⟨w, hw, hwo, hwr⟩ := (hinv.1 d0 hd0).mp hdisp
            exact ⟨w, List.mem_append_left _ hw, hwo, hwr⟩
          · rintro ⟨w, hw, hwo, hwr⟩
            rcases List.mem_append.mp hw with hw2 | hw2
            · exact (hinv.1 d0 hd0).mpr ⟨w, hw2, hwo, hwr⟩
            · rw [List.mem_singleton] at hw2
              subst hw2
              exact absurd hwr.symm hid
    · rw [hcam, hvis]
      intro c2 hc2
      rw [List.mem_map] at hc2
      obtain ⟨c0, hc0, hc0e⟩ := hc2
      by_cases hpc : (c0.id_cama == bc && c0.id_sala == br &&
          c0.estado == CamaEstado.LIBRE) = true
      · rw [if_pos hpc] at hc0e
        subst hc0e
        rw [Bool.and_eq_true, Bool.and_eq_true, beq_iff_eq, beq_iff_eq]
          at hpc
        constructor
        · intro _
          exact ⟨insertedVisita pid tid org p now s.next_folio i bc br,
            List.mem_append_right _ (List.mem_singleton_self _), rfl,
            hpc.1.1.symm, hpc.1.2.symm⟩
        · intro _
          rfl
      · rw [if_neg hpc] at hc0e
        subst hc0e
        by_cases hkey : c0.id_cama = bc ∧ c0.id_sala = br
        · have hocup : c0.estado = CamaEstado.OCUPADA := by
            cases hcb : c0.estado with
            | OCUPADA => rfl
            | LIBRE =>
              exfalso
              apply hpc
              rw [Bool.and_eq_true, Bool.and_eq_true, beq_iff_eq,
                beq_iff_eq]
              exact ⟨⟨hkey.1, hkey.2⟩, by simp [hcb]⟩
          constructor
          · intro _
            exact ⟨insertedVisita pid tid org p now s.next_folio i bc br,
              List.mem_append_right _ (List.mem_singleton_self _), rfl,
              hkey.1.symm, hkey.2.symm⟩
          · intro _
            exact hocup
        · constructor
          · intro hocc2
            obtain ⟨w, hw, hwo, hwb, hwr⟩ := (hinv.2.1 c0 hc0).mp hocc2
            exact ⟨w, List.mem_append_left _ hw, hwo, hwb, hwr⟩
          · rintro ⟨w, hw, hwo, hwb, hwr⟩
            rcases List.mem_append.mp hw with hw2 | hw2
            · exact (hinv.2.1 c0 hc0).mpr ⟨w, hw2, hwo, hwb, hwr⟩
            · rw [List.mem_singleton] at hw2
              subst hw2
              exact absurd ⟨hwb.symm, hwr.symm⟩ hkey
    · rw [hvis]
      rw [List.pairwise_append]
      refine ⟨hinv.2.2, List.pairwise_singleton _ _, ?_⟩
      intro w hw z hz
      rw [List.mem_singleton] at hz
      subst hz
      intro hwo _
      constructor
      · intro heq
        exact hno_doc ⟨w, hw, hwo, heq⟩
      · intro heq
        rw [Prod.mk.injEq] at heq
        exact hno_bed ⟨w, hw, hwo, heq.1, heq.2⟩

theorem cerrar_ok_fields (now : String) {folio : Nat} {s s3 : Store}
    (hnd : (s.visitas.map (·.folio)).Nodup)
    (h : cerrar_visita_body folio now s = .ok ((), s3)) :
    ∃ x ∈ s.visitas, x.folio = folio ∧ x.estado = VisitaEstado.ABIERTA ∧
      s3.visitas = (s.visitas.map fun v =>
        if v.folio == folio && v.estado == VisitaEstado.ABIERTA
        then { v with estado := VisitaEstado.CERRADA
                      fecha_hora_cierre := some now }
        else v) ∧
      s3.doctores = (s.doctores.map fun d =>
        if d.id_doctor == x.id_doctor then { d with disponible := true }
        else d) ∧
      s3.camas = (s.camas.map fun c =>
        if c.id_cama == x.id_cama && c.id_sala == x.id_sala
        then { c with estado := CamaEstado.LIBRE } else c) ∧
      s3.next_folio = s.next_folio := by
  have hcount := cerrar_body_count_one h
  have hpos : 0 < (s.visitas.filter fun v => v.folio == folio &&
      v.estado == VisitaEstado.ABIERTA).length := by omega
  obtain ⟨x, hxf⟩ := List.exists_mem_of_length_pos hpos
  rw [List.mem_filter, Bool.and_eq_true, beq_iff_eq] at hxf
  have hxo : x.estado = VisitaEstado.ABIERTA := by
    have := hxf.2.2
    rwa [beq_iff_eq] at this
  have hfull := cerrar_body_ok_full now hnd hxf.1 hxf.2.1 hxo
  rw [h] at hfull
  injection hfull with hfull
  injection hfull with h1 h2
  refine ⟨x, hxf.1, hxf.2.1, hxo, ?_, ?_, ?_, ?_⟩ <;> rw [h2]

theorem good_cerrar (folio : Nat) (now : String) (s : Store)
    (hg : GoodState s) : GoodState (cerrar_visita_tx folio now s).2 := by
  cases hres : cerrar_visita_body folio now s with
  | error e =>
    have htx := tx_err hres
    unfold cerrar_visita_tx
    rw [htx]
    exact hg
  | ok pr =>
    obtain ⟨u, s3⟩ := pr
    cases u
    have htx := tx_ok hres
    unfold cerrar_visita_tx
    rw [htx]
    dsimp only
    obtain ⟨hwf, hfk, hinv⟩ := hg
    obtain ⟨x, hx, hxfol, hxopen, hvis, hdoc, hcam, hnf⟩ :=
      cerrar_ok_fields now hwf.2.2.1 hres
    have hinj : ∀ w ∈ s.visitas, w.folio = folio → w = x := by
      intro w hw hwfol
      exact List.inj_on_of_nodup_map hwf.2.2.1 hw hx (by rw [hwfol, hxfol])
    have hpw : ∀ a ∈ s.visitas, ∀ b ∈ s.visitas, a ≠ b →
        a.estado = VisitaEstado.ABIERTA → b.estado = VisitaEstado.ABIERTA →
        a.id_doctor ≠ b.id_doctor ∧
        (a.id_cama, a.id_sala) ≠ (b.id_cama, b.id_sala) := by
      intro a ha b hb hne
      exact hinv.2.2.forall rowInv_pairwise_symm ha hb hne
    refine ⟨⟨?_, ?_, ?_, ?_⟩, ⟨?_, ?_⟩, ?_, ?_, ?_⟩
    · rw [hdoc, map_key_of_update (fun d : Doctor => d.id_doctor)
        (fun d : Doctor => d.id_doctor == x.id_doctor)
        (fun d : Doctor => { d with disponible := true }) fun e => rfl]
      exact hwf.1
    · rw [hcam, map_key_of_update (fun c : Cama => (c.id_sala, c.id_cama))
        (fun c : Cama => c.id_cama == x.id_cama && c.id_sala == x.id_sala)
        (fun c : Cama => { c with estado := CamaEstado.LIBRE }) fun e => rfl]
      exact hwf.2.1
    · rw [hvis, map_key_of_update (fun v : Visita => v.folio)
        (fun v : Visita => v.folio == folio &&
          v.estado == VisitaEstado.ABIERTA)
        (fun v : Visita => { v with estado := VisitaEstado.CERRADA
                                    fecha_hora_cierre := some now })
        fun e => rfl]
      exact hwf.2.2.1
    · rw [hvis, hnf]
      intro w hw
      rw [List.mem_map] at hw
      obtain ⟨w0, hw0, hw0e⟩ := hw
      rw [← hw0e, update_key_eq (fun v : Visita => v.folio)
        (fun v : Visita => v.folio == folio &&
          v.estado == VisitaEstado.ABIERTA)
        (fun v : Visita => { v with estado := VisitaEstado.CERRADA
                                    fecha_hora_cierre := some now })
        (fun e => rfl) w0]
      exact hwf.2.2.2 w0 hw0
    · rw [hvis, hdoc]
      intro w2 hw2 hw2o
      rw [List.mem_map] at hw2
      obtain ⟨w0, hw0, hw0e⟩ := hw2
      by_cases hp : (w0.folio == folio &&
          w0.estado == VisitaEstado.ABIERTA) = true
      · rw [if_pos hp] at hw0e
        rw [← hw0e] at hw2o
        simp at hw2o
      · rw [if_neg hp] at hw0e
        subst hw0e
        obtain ⟨d, hd, hdi⟩ := hfk.1 w0 hw0 hw2o
        refine ⟨if d.id_doctor == x.id_doctor
            then { d with disponible := true } else d,
          List.mem_map_of_mem _ hd, ?_⟩
        rw [update_key_eq (fun d : Doctor => d.id_doctor)
          (fun d : Doctor => d.id_doctor == x.id_doctor)
          (fun d : Doctor => { d with disponible := true })
          (fun e => rfl) d]
        exact hdi
    · rw [hvis, hcam]
      intro w2 hw2 hw2o
      rw [List.mem_map] at hw2
      obtain ⟨w0, hw0, hw0e⟩ := hw2
      by_cases hp : (w0.folio == folio &&
          w0.estado == VisitaEstado.ABIERTA) = true
      · rw [if_pos hp] at hw0e
        rw [← hw0e] at hw2o
        simp at hw2o
      · rw [if_neg hp] at hw0e
        subst hw0e
        obtain ⟨c, hc, hcb, hcr⟩ := hfk.2 w0 hw0 hw2o
        refine ⟨if c.id_cama == x.id_cama && c.id_sala == x.id_sala
            then { c with estado := CamaEstado.LIBRE } else c,
          List.mem_map_of_mem _ hc,
          by rw [update_key_eq (fun c : Cama => c.id_cama)
               (fun c : Cama => c.id_cama == x.id_cama &&
                 c.id_sala == x.id_sala)
               (fun c : Cama => { c with estado := CamaEstado.LIBRE })
               (fun e2 => rfl) c]
             exact hcb,
          by rw [update_key_eq (fun c : Cama => c.id_sala)
               (fun c : Cama => c.id_cama == x.id_cama &&
                 c.id_sala == x.id_sala)
               (fun c : Cama => { c with estado := CamaEstado.LIBRE })
               (fun e2 => rfl) c]
             exact hcr⟩
    · rw [hdoc, hvis]
      intro d2 hd2
      rw [List.mem_map] at hd2
      obtain ⟨d0, hd0, hd0e⟩ := hd2
      by_cases hid : (d0.id_doctor == x.id_doctor) = true
      · rw [if_pos hid] at hd0e
        subst hd0e
        rw [beq_iff_eq] at hid
        apply iff_of_false
        · simp
        · rintro ⟨w2, hw2, hw2o, hw2r⟩
          rw [List.mem_map] at hw2
          obtain ⟨w0, hw0, hw0e⟩ := hw2
          by_cases hp : (w0.folio == folio &&
              w0.estado == VisitaEstado.ABIERTA) = true
          · rw [if_pos hp] at hw0e
            rw [← hw0e] at hw2o
            simp at hw2o
          · rw [if_neg hp] at hw0e
            subst hw0e
            have hw0fol : w0.folio ≠ folio := by
              intro hf
              apply hp
              rw [Bool.and_eq_true, beq_iff_eq]
              exact ⟨hf, by simp [hw2o]⟩
            have hw0x : w0 ≠ x := by
              intro he
              rw [he] at hw0fol
              exact hw0fol hxfol
            have := (hpw w0 hw0 x hx hw0x hw2o hxopen).1
            rw [hw2r, hid] at this
            exact this rfl
      · rw [if_neg hid] at hd0e
        subst hd0e
        rw [beq_iff_eq] at hid
        rw [hinv.1 d0 hd0]
        constructor
        · rintro ⟨w0, hw0, hw0o, hw0r⟩
          have hw0x : w0 ≠ x := by
            intro he
            rw [he] at hw0r
            exact hid hw0r.symm
          have hw0fol : w0.folio ≠ folio := by
            intro hf
            exact hw0x (hinj w0 hw0 hf)
          have hp : (w0.folio == folio &&
              w0.estado == VisitaEstado.ABIERTA) = false := by
            rw [Bool.and_eq_false_iff]
            left
            rw [beq_eq_false_iff_ne]
            exact hw0fol
          have hmem := mem_map_update_of_mem
            (fun v : Visita => v.folio == folio &&
              v.estado == VisitaEstado.ABIERTA)
            (fun v : Visita => { v with estado := VisitaEstado.CERRADA
                                        fecha_hora_cierre := some now })
            hw0
          rw [if_neg (by simp [hp])] at hmem
          exact ⟨w0, hmem, hw0o, hw0r⟩
        · rintro ⟨w2, hw2, hw2o, hw2r⟩
          rw [List.mem_map] at hw2
          obtain ⟨w0, hw0, hw0e⟩ := hw2
          by_cases hp : (w0.folio == folio &&
              w0.estado == VisitaEstado.ABIERTA) = true
          · rw [if_pos hp] at hw0e
            rw [← hw0e] at hw2o
            simp at hw2o
          · rw [if_neg hp] at hw0e
            subst hw0e
            exact ⟨w0, hw0, hw2o, hw2r⟩
    · rw [hcam, hvis]
      intro c2 hc2
      rw [List.mem_map] at hc2
      obtain ⟨c0, hc0, hc0e⟩ := hc2
      by_cases hkey : (c0.id_cama == x.id_cama &&
          c0.id_sala == x.id_sala) = true
      · rw [if_pos hkey] at hc0e
        subst hc0e
        rw [Bool.and_eq_true, beq_iff_eq, beq_iff_eq] at hkey
        apply iff_of_false
        · simp
        · rintro ⟨w2, hw2, hw2o, hw2b, hw2r⟩
          rw [List.mem_map] at hw2
          obtain ⟨w0, hw0, hw0e⟩ := hw2
          by_cases hp : (w0.folio == folio &&
              w0.estado == VisitaEstado.ABIERTA) = true
          · rw [if_pos hp] at hw0e
            rw [← hw0e] at hw2o
            simp at hw2o
          · rw [if_neg hp] at hw0e
            subst hw0e
            have hw0fol : w0.folio ≠ folio := by
              intro hf
              apply hp
              rw [Bool.and_eq_true, beq_iff_eq]
              exact ⟨hf, by simp [hw2o]⟩
            have hw0x : w0 ≠ x := by
              intro he
              rw [he] at hw0fol
              exact hw0fol hxfol
            apply (hpw w0 hw0 x hx hw0x hw2o hxopen).2
            rw [Prod.mk.injEq]
            constructor
            · rw [hw2b]
              exact hkey.1
            · rw [hw2r]
              exact hkey.2
      · rw [if_neg hkey] at hc0e
        subst hc0e
        rw [Bool.and_eq_true] at hkey
        push_neg at hkey
        rw [hinv.2.1 c0 hc0]
        constructor
        · rintro ⟨w0, hw0, hw0o, hw0b, hw0r⟩
          have hw0x : w0 ≠ x := by
            intro he
            apply hkey
            · rw [beq_iff_eq, ← hw0b, he]
            · rw [beq_iff_eq, ← hw0r, he]
          have hw0fol : w0.folio ≠ folio := by
            intro hf
            exact hw0x (hinj w0 hw0 hf)
          have hmem := mem_map_update_of_mem
            (fun v : Visita => v.folio == folio &&
              v.estado == VisitaEstado.ABIERTA)
            (fun v : Visita => { v with estado := VisitaEstado.CERRADA
                                        fecha_hora_cierre := some now })
            hw0
          rw [if_neg (by
            rw [Bool.and_eq_true, beq_iff_eq]
            rintro ⟨hf, _⟩
            exact hw0fol hf)] at hmem
          exact ⟨w0, hmem, hw0o, hw0b, hw0r⟩
        · rintro ⟨w2, hw2, hw2o, hw2b, hw2r⟩
          rw [List.mem_map] at hw2
          obtain ⟨w0, hw0, hw0e⟩ := hw2
          by_cases hp : (w0.folio == folio &&
              w0.estado == VisitaEstado.ABIERTA) = true
          · rw [if_pos hp] at hw0e
            rw [← hw0e] at hw2o
            simp at hw2o
          · rw [if_neg hp] at hw0e
            subst hw0e
            exact ⟨w0, hw0, hw2o, hw2b, hw2r⟩
    · rw [hvis, List.pairwise_map]
      refine hinv.2.2.imp ?_
      intro a b hab hoa hob
      by_cases hpa : (a.folio == folio &&
          a.estado == VisitaEstado.ABIERTA) = true
      · rw [if_pos hpa] at hoa
        simp at hoa
      · rw [if_neg hpa] at hoa ⊢
        by_cases hpb : (b.folio == folio &&
            b.estado == VisitaEstado.ABIERTA) = true
        · rw [if_pos hpb] at hob
          simp at hob
        · rw [if_neg hpb] at hob ⊢
          exact hab hoa hob

/-- Counterexample to Claim C9 as stated: `S_cnt` satisfies both counting
equalities of P2, yet one successful Open breaks the doctor equality (two
unavailable doctors but a single distinct referenced doctor id), because
count equality alone does not make the counted rows the referenced ones. -/
theorem C9_counterexample :
    countsEq S_cnt ∧ ¬countsEq (crear_visita_tx P_A "t" S_cnt).2 := by
  constructor
  · decide
  · decide

/-- Claim C9 amended: strengthening the precondition from the bare
counting equalities to the per-row invariant (doctor unavailable iff an
OPEN visit references it, bed OCUPADA iff an OPEN visit references it, no
two OPEN visits sharing a resource) together with unique keys and
reference integrity, every completed Open or Close — successful or failed
— preserves that invariant, and with it both counting equalities. -/
theorem C9_conservation (s : Store) (p : Payload) (now : String)
    (folio : Nat) (now2 : String) (hg : GoodState s) :
    countsEq s ∧
    GoodState (crear_visita_tx p now s).2 ∧
    countsEq (crear_visita_tx p now s).2 ∧
    GoodState (cerrar_visita_tx folio now2 s).2 ∧
    countsEq (cerrar_visita_tx folio now2 s).2 :=
  ⟨countsEq_of_good hg,
   good_crear p now s hg,
   countsEq_of_good (good_crear p now s hg),
   good_cerrar folio now2 s hg,
   countsEq_of_good (good_cerrar folio now2 s hg)⟩

/-- Witness for the amended C9 at `S_close` (a good state with one open
visit): the counting equalities hold before and after both a completed
Open attempt and a completed Close. -/
theorem C9_witness :
    countsEq S_close ∧
    GoodState (crear_visita_tx P_A "t" S_close).2 ∧
    countsEq (crear_visita_tx P_A "t" S_close).2 ∧
    GoodState (cerrar_visita_tx 1 "u" S_close).2 ∧
    countsEq (cerrar_visita_tx 1 "u" S_close).2 :=
  C9_conservation S_close P_A "t" 1 "u" (by decide)
